import Mathlib

/-!
Verification of the DeadlySins Shockball ingestion/sync subsystem.

This file gives a shallow embedding of the sync worker
(src/workers/sync.ts), the rate-limited API client
(src/lib/shockball/client.ts) and the generated columns of the
energy_snapshots table (database schema migration), and proves the
frozen claims about them.

Modelling conventions:
- JS numbers that hold counting stats are Nat; scores and energies are Int;
  derived rates and the penalty magnitude are Rat.
- Database tables are lists of rows in insertion order; ordering by
  fetched_at descending is list reversal.
- The Supabase client never throws on a failed write: a write error is
  returned as a value and the worker only logs it.  Write failures are
  injected through an environment schedule (Env.wFail); a failed write
  leaves the table unchanged.  Every attempted write is recorded in an
  operation trace.
- Exceptions thrown by the upstream API client are modelled with Except;
  the try/catch blocks of the orchestrator are modelled by matching on
  the Except value of the guarded block.
-/

-- ============================================================
-- Shared identifiers and API payload types (src/types, client.ts)
-- ============================================================

def DEADLY_SINS_TEAM_ID : String := "cmgbpfhey01c8s12xz26jkbga"

inductive MatchStatus where
  | SCHEDULED
  | IN_PROGRESS
  | COMPLETED
deriving DecidableEq

structure ApiTeam where
  id : String
  name : String
  imageUrl : Option String := none
  venue : Option String := none
deriving DecidableEq

structure ApiCompetition where
  id : String
  name : String
  type : String
  status : Option String := none
  startDate : Option String := none
  season : Option Int := none
deriving DecidableEq

/-- Conferences and leagues are id/name pairs both in the API payloads
and in their tables. -/
structure RefRow where
  id : String
  name : String
deriving DecidableEq

structure ApiMatch where
  id : String
  scheduledTime : String
  status : MatchStatus
  homeScore : Option Int := none
  awayScore : Option Int := none
  homeTeam : ApiTeam
  awayTeam : ApiTeam
  competition : Option ApiCompetition := none
  conference : Option RefRow := none
  league : Option RefRow := none
deriving DecidableEq

structure ApiPlayerStats where
  playerId : String
  playerName : String
  shots : Nat
  goals : Nat
  passes : Nat
  tackles : Nat
  blocks : Nat
  fouls : Nat
  wasInjured : Bool
deriving DecidableEq

/-- The slice of a game event context read by the sync worker: the two
energy mappings.  Object.entries enumeration is modelled by association
lists in insertion order. -/
structure EventContext where
  initialEnergy : Option (List (String × Int)) := none
  turnEnergy : Option (List (String × Int)) := none
deriving DecidableEq

structure ApiGameEvent where
  turn : Nat
  type : String
  description : String
  playersInvolved : List String
  homeScore : Int
  awayScore : Int
  context : Option EventContext := none
deriving DecidableEq

structure ReplayMatchInfo where
  id : String
  homeTeam : ApiTeam
  awayTeam : ApiTeam
  homeScore : Int
  awayScore : Int
  scheduledTime : String
  simVersion : String
deriving DecidableEq

structure PlayerStatsBySide where
  home : List ApiPlayerStats
  away : List ApiPlayerStats
deriving DecidableEq

structure ReplayPayload where
  matchInfo : ReplayMatchInfo
  playerStats : PlayerStatsBySide
  events : List ApiGameEvent
deriving DecidableEq

structure ApiReplayData where
  success : Bool
  data : ReplayPayload
  timestamp : String
deriving DecidableEq

/-- filterDeadlySinsMatches from client.ts. -/
def filterDeadlySinsMatches (ms : List ApiMatch) : List ApiMatch :=
  ms.filter fun m =>
    m.homeTeam.id == DEADLY_SINS_TEAM_ID || m.awayTeam.id == DEADLY_SINS_TEAM_ID

-- ============================================================
-- C7: generated penalty columns of the energy_snapshots table
-- ============================================================

/-- penalty_tier generated column of energy_snapshots (schema migration). -/
def penaltyTier (energy : Int) : String :=
  if energy ≥ 30 then "none"
  else if energy ≥ 10 then "moderate"
  else "severe"

/-- penalty_magnitude generated column of energy_snapshots (schema migration). -/
def penaltyMagnitude (energy : Int) : ℚ :=
  if energy ≥ 30 then 0
  else if energy ≥ 10 then ((30 : ℚ) - energy) * 0.5
  else ((10 : ℚ) - energy) * 1.5 + 10

/-- The spec's piecewise penalty tier, written from the spec's words:
none when e>=30; moderate when 10<=e<30; severe when e<10. -/
def specPenaltyTier (e : Int) : String :=
  if e ≥ 30 then "none"
  else if 10 ≤ e ∧ e < 30 then "moderate"
  else "severe"

/-- The spec's piecewise penalty magnitude, written from the spec's words. -/
def specPenaltyMagnitude (e : Int) : ℚ :=
  if e ≥ 30 then 0
  else if 10 ≤ e ∧ e < 30 then ((30 : ℚ) - e) * 0.5
  else ((10 : ℚ) - e) * 1.5 + 10

/-- C7: for every stored energy value e in [0,100], the persisted penalty
tier and magnitude equal the spec's piecewise functions of e alone, and in
particular e=30 gives ("none", 0), e=20 gives ("moderate", 5.0), e=9 gives
("severe", 11.5), e=0 gives ("severe", 25.0). -/
theorem c7_penalty_columns_match_spec :
    (∀ e : Int, 0 ≤ e → e ≤ 100 →
      penaltyTier e = specPenaltyTier e ∧ penaltyMagnitude e = specPenaltyMagnitude e) ∧
    penaltyTier 30 = "none" ∧ penaltyMagnitude 30 = 0 ∧
    penaltyTier 20 = "moderate" ∧ penaltyMagnitude 20 = 5 ∧
    penaltyTier 9 = "severe" ∧ penaltyMagnitude 9 = 11.5 ∧
    penaltyTier 0 = "severe" ∧ penaltyMagnitude 0 = 25 := by
  refine ⟨fun e _ _ => ⟨?_, ?_⟩, ?_, ?_, ?_, ?_, ?_, ?_, ?_, ?_⟩
  · unfold penaltyTier specPenaltyTier
    split_ifs <;> first | rfl | omega
  · unfold penaltyMagnitude specPenaltyMagnitude
    split_ifs <;> first | rfl | omega
  all_goals norm_num [penaltyTier, penaltyMagnitude]

/-- Witness for C7 at the concrete energy value 20. -/
theorem c7_penalty_columns_match_spec_witness :
    penaltyTier 20 = specPenaltyTier 20 ∧ penaltyMagnitude 20 = specPenaltyMagnitude 20 :=
  c7_penalty_columns_match_spec.1 20 (by norm_num) (by norm_num)

-- ============================================================
-- C8: derived per-player rates written by persistReplayData
-- ============================================================

/-- One row of player_match_stats, as built in persistReplayData. -/
structure PlayerStatRow where
  match_id : String
  player_id : String
  player_name : String
  team_id : String
  is_home_team : Bool
  shots : Nat
  goals : Nat
  passes : Nat
  tackles : Nat
  blocks : Nat
  fouls : Nat
  was_injured : Bool
  shot_conversion_rate : Option ℚ
  foul_rate : Option ℚ
deriving DecidableEq

/-- The row mapping of persistReplayData (sync.ts), shared between the
home-side and away-side map bodies, which differ only in the team id and
the is_home_team flag. -/
def mkStatRow (matchId : String) (teamId : String) (isHome : Bool)
    (p : ApiPlayerStats) : PlayerStatRow :=
  { match_id := matchId
    player_id := p.playerId
    player_name := p.playerName
    team_id := teamId
    is_home_team := isHome
    shots := p.shots
    goals := p.goals
    passes := p.passes
    tackles := p.tackles
    blocks := p.blocks
    fouls := p.fouls
    was_injured := p.wasInjured
    shot_conversion_rate :=
      if p.shots > 0 then some ((p.goals : ℚ) / (p.shots : ℚ)) else none
    foul_rate :=
      if p.tackles > 0 then some ((p.fouls : ℚ) / (p.tackles : ℚ)) else none }

/-- All player-stat rows written for one replay: home side then away side,
exactly as persistReplayData concatenates them. -/
def statRows (matchId : String) (replay : ApiReplayData) : List PlayerStatRow :=
  replay.data.playerStats.home.map
      (mkStatRow matchId replay.data.matchInfo.homeTeam.id true)
    ++ replay.data.playerStats.away.map
      (mkStatRow matchId replay.data.matchInfo.awayTeam.id false)

/-- C8: every player-stat row written during detail persistence (home and
away alike) stores goal conversion = goals/shots when shots>0 and null when
shots=0, and foul rate = fouls/tackles when tackles>0 and null when
tackles=0; shots=10, goals=3 yields conversion exactly 0.3. -/
theorem c8_derived_rates :
    (∀ (matchId : String) (replay : ApiReplayData) (r : PlayerStatRow),
      r ∈ statRows matchId replay →
        (0 < r.shots → r.shot_conversion_rate = some ((r.goals : ℚ) / (r.shots : ℚ))) ∧
        (r.shots = 0 → r.shot_conversion_rate = none) ∧
        (0 < r.tackles → r.foul_rate = some ((r.fouls : ℚ) / (r.tackles : ℚ))) ∧
        (r.tackles = 0 → r.foul_rate = none)) ∧
    (mkStatRow "m" "t" true
      { playerId := "p", playerName := "n", shots := 10, goals := 3, passes := 0,
        tackles := 0, blocks := 0, fouls := 0, wasInjured := false }).shot_conversion_rate
      = some (0.3 : ℚ) := by
  constructor
  · intro matchId replay r hr
    have hform : ∃ teamId isHome p, r = mkStatRow matchId teamId isHome p := by
      simp only [statRows, List.mem_append, List.mem_map] at hr
      rcases hr with ⟨p, _, hp⟩ | ⟨p, _, hp⟩
      · exact ⟨_, _, p, hp.symm⟩
      · exact ⟨_, _, p, hp.symm⟩
    obtain ⟨teamId, isHome, p, rfl⟩ := hform
    refine ⟨fun h => ?_, fun h => ?_, fun h => ?_, fun h => ?_⟩ <;>
      simp only [mkStatRow] at h ⊢
    · simp [h]
    · simp [h]
    · simp [h]
    · simp [h]
  · norm_num [mkStatRow]

/-- Witness for C8 on a concrete single-player replay payload. -/
theorem c8_derived_rates_witness :
    (mkStatRow "m1" "th" true
      { playerId := "p1", playerName := "P", shots := 10, goals := 3, passes := 2,
        tackles := 0, blocks := 0, fouls := 1, wasInjured := false }) ∈
        statRows "m1"
          { success := true
            data :=
              { matchInfo :=
                  { id := "m1", homeTeam := { id := "th", name := "H" },
                    awayTeam := { id := "ta", name := "A" }, homeScore := 1,
                    awayScore := 0, scheduledTime := "", simVersion := "v1" }
                playerStats :=
                  { home := [{ playerId := "p1", playerName := "P", shots := 10, goals := 3,
                               passes := 2, tackles := 0, blocks := 0, fouls := 1,
                               wasInjured := false }]
                    away := [] }
                events := [] }
            timestamp := "" } ∧
    (mkStatRow "m1" "th" true
      { playerId := "p1", playerName := "P", shots := 10, goals := 3, passes := 2,
        tackles := 0, blocks := 0, fouls := 1, wasInjured := false }).shot_conversion_rate
      = some ((3 : ℚ) / 10) ∧
    (mkStatRow "m1" "th" true
      { playerId := "p1", playerName := "P", shots := 10, goals := 3, passes := 2,
        tackles := 0, blocks := 0, fouls := 1, wasInjured := false }).foul_rate = none := by
  refine ⟨by simp [statRows], ?_, ?_⟩
  · exact (c8_derived_rates.1 "m1"
      { success := true
        data :=
          { matchInfo :=
              { id := "m1", homeTeam := { id := "th", name := "H" },
                awayTeam := { id := "ta", name := "A" }, homeScore := 1,
                awayScore := 0, scheduledTime := "", simVersion := "v1" }
            playerStats :=
              { home := [{ playerId := "p1", playerName := "P", shots := 10, goals := 3,
                           passes := 2, tackles := 0, blocks := 0, fouls := 1,
                           wasInjured := false }]
                away := [] }
            events := [] }
        timestamp := "" } _ (by simp [statRows])).1 (by norm_num [mkStatRow])
  · exact (c8_derived_rates.1 "m1"
      { success := true
        data :=
          { matchInfo :=
              { id := "m1", homeTeam := { id := "th", name := "H" },
                awayTeam := { id := "ta", name := "A" }, homeScore := 1,
                awayScore := 0, scheduledTime := "", simVersion := "v1" }
            playerStats :=
              { home := [{ playerId := "p1", playerName := "P", shots := 10, goals := 3,
                           passes := 2, tackles := 0, blocks := 0, fouls := 1,
                           wasInjured := false }]
                away := [] }
            events := [] }
        timestamp := "" } _ (by simp [statRows])).2.2.2 (by norm_num [mkStatRow])

-- ============================================================
-- C9: energy snapshot extraction
-- ============================================================

/-- One row headed for energy_snapshots (before the generated columns). -/
structure EnergySnapRow where
  match_id : String
  player_id : String
  turn : Nat
  energy : Int
deriving DecidableEq

/-- extractEnergySnapshots from sync.ts: a fold over the event list that
pushes, per event, one tuple per entry of the initial-energy mapping
(turn 0) and one tuple per entry of the turn-energy mapping (the event's
turn). -/
def extractEnergySnapshots (matchId : String) (events : List ApiGameEvent) :
    List EnergySnapRow :=
  events.foldl
    (fun snapshots e =>
      snapshots ++
        ((match e.context with
          | none => []
          | some c =>
            (match c.initialEnergy with
             | none => []
             | some entries =>
               entries.map fun pe =>
                 { match_id := matchId, player_id := pe.1, turn := 0, energy := pe.2 })
            ++
            (match c.turnEnergy with
             | none => []
             | some entries =>
               entries.map fun pe =>
                 { match_id := matchId, player_id := pe.1, turn := e.turn, energy := pe.2 }))))
    []

/-- The per-event family of output tuples described by the claim. -/
def eventSnapshots (matchId : String) (e : ApiGameEvent) : List EnergySnapRow :=
  match e.context with
  | none => []
  | some c =>
    (match c.initialEnergy with
     | none => []
     | some entries =>
       entries.map fun pe =>
         { match_id := matchId, player_id := pe.1, turn := 0, energy := pe.2 })
    ++
    (match c.turnEnergy with
     | none => []
     | some entries =>
       entries.map fun pe =>
         { match_id := matchId, player_id := pe.1, turn := e.turn, energy := pe.2 })

theorem foldl_append_eq_flatMap {α β : Type} (f : α → List β) :
    ∀ (l : List α) (acc : List β),
      l.foldl (fun a e => a ++ f e) acc = acc ++ l.flatMap f := by
  intro l
  induction l with
  | nil => intro acc; simp
  | cons x xs ih => intro acc; simp [List.foldl_cons, ih]

/-- C9: the energy extractor is a pure function of (matchId, events): its
output is exactly the concatenation, over the event list, of one tuple per
entry of an initial-energy mapping (turn 0) and one tuple per entry of a
turn-energy mapping (that event's turn); energy values pass through without
any bounds validation, e.g. an out-of-range energy 250 is emitted as is. -/
theorem c9_energy_extractor_exact :
    (∀ (matchId : String) (events : List ApiGameEvent),
      extractEnergySnapshots matchId events = events.flatMap (eventSnapshots matchId)) ∧
    extractEnergySnapshots "m"
        [{ turn := 5, type := "TURN_UPDATE", description := "", playersInvolved := [],
           homeScore := 0, awayScore := 0,
           context := some { initialEnergy := none, turnEnergy := some [("p", 250)] } }]
      = [{ match_id := "m", player_id := "p", turn := 5, energy := 250 }] := by
  constructor
  · intro matchId events
    have h := foldl_append_eq_flatMap (eventSnapshots matchId) events []
    simp only [List.nil_append] at h
    rw [← h]
    rfl
  · rfl

-- ============================================================
-- Rate-limited API client (client.ts): apiFetch retry loop
-- ============================================================

/-- Upstream behaviour of one HTTP attempt, indexed by the retry count. -/
inductive AttemptResp where
  | notModified (lastModified : Option String)
  | throttled (retryAfter : Option Nat)
  | httpFailure (status : Nat) (body : String)
  | success (lastModified : Option String)

structure ApiFetchOut where
  notModified : Bool
  lastModified : Option String
deriving DecidableEq

/-- parseInt(headers.get('Retry-After') ?? '60'). -/
def retryAfterValue : Option Nat → Nat
  | some n => n
  | none => 60

/-- Math.min(retryAfter * 1000, (2 ** retryCount) * 5000). -/
def backoffWait (retryAfter : Nat) (retryCount : Nat) : Nat :=
  min (retryAfter * 1000) (2 ^ retryCount * 5000)

/-- The retry loop of apiFetch (client.ts), carrying the attempt-indexed
upstream behaviour; the second component records the waits performed
before each retry. -/
def apiFetchFrom (resp : Nat → AttemptResp) (retryCount : Nat) :
    Except String ApiFetchOut × List Nat :=
  match resp retryCount with
  | .notModified lm => (.ok { notModified := true, lastModified := lm }, [])
  | .success lm => (.ok { notModified := false, lastModified := lm }, [])
  | .httpFailure status body =>
      (.error ("Shockball API error " ++ toString status ++ ": " ++ body), [])
  | .throttled ra =>
    if _h : retryCount ≥ 3 then (.error "Rate limit exceeded after 3 retries", [])
    else
      let w := backoffWait (retryAfterValue ra) retryCount
      let r := apiFetchFrom resp (retryCount + 1)
      (r.1, w :: r.2)
termination_by 3 - retryCount
decreasing_by omega

/-- An upstream that advertises a large Retry-After on the first throttle
and a small one afterwards. -/
def c4BadResp : Nat → AttemptResp := fun k =>
  .throttled (some (if k = 0 then 60 else 1))

/-- C4 counterexample: under 4 consecutive throttling responses whose
advertised Retry-After shrinks, the per-retry waits are 5000ms then 1000ms:
not monotonically non-decreasing, refuting the claim as stated. -/
theorem c4_backoff_counterexample :
    (apiFetchFrom c4BadResp 0).1 = .error "Rate limit exceeded after 3 retries" ∧
    (apiFetchFrom c4BadResp 0).2 = [5000, 1000, 1000] ∧
    ¬ (5000 : Nat) ≤ 1000 := by
  refine ⟨?_, ?_, by norm_num⟩ <;>
    simp [apiFetchFrom, c4BadResp, backoffWait, retryAfterValue]

/-- C4 (amended): on throttling, apiFetch waits
min(advertised-retry-after, 5s doubling per attempt); it abandons after 3
retries with a fatal error, consulting no attempt beyond the 3rd retry; the
waits are bounded by the exponential schedule and by the advertised
retry-after, and they are monotonically non-decreasing whenever the
advertised retry-after value is the same on every throttled response. -/
theorem c4_backoff_amended (resp : Nat → AttemptResp) (ra : Nat → Option Nat)
    (h : ∀ k, k ≤ 3 → resp k = .throttled (ra k)) :
    (apiFetchFrom resp 0).1 = .error "Rate limit exceeded after 3 retries" ∧
    (apiFetchFrom resp 0).2 =
      [backoffWait (retryAfterValue (ra 0)) 0,
       backoffWait (retryAfterValue (ra 1)) 1,
       backoffWait (retryAfterValue (ra 2)) 2] ∧
    (∀ k, backoffWait (retryAfterValue (ra k)) k ≤ 2 ^ k * 5000) ∧
    (∀ k, backoffWait (retryAfterValue (ra k)) k ≤ retryAfterValue (ra k) * 1000) ∧
    ((∀ k, ra k = ra 0) →
      backoffWait (retryAfterValue (ra 0)) 0 ≤ backoffWait (retryAfterValue (ra 1)) 1 ∧
      backoffWait (retryAfterValue (ra 1)) 1 ≤ backoffWait (retryAfterValue (ra 2)) 2) ∧
    (∀ resp2 : Nat → AttemptResp, (∀ k, k ≤ 3 → resp2 k = resp k) →
      apiFetchFrom resp2 0 = apiFetchFrom resp 0) := by
  have h0 := h 0 (by omega)
  have h1 := h 1 (by omega)
  have h2 := h 2 (by omega)
  have h3 := h 3 (by omega)
  refine ⟨?_, ?_, ?_, ?_, ?_, ?_⟩
  · simp [apiFetchFrom, h0, h1, h2, h3]
  · simp [apiFetchFrom, h0, h1, h2, h3]
  · intro k; exact Nat.min_le_right _ _
  · intro k; exact Nat.min_le_left _ _
  · intro hc
    rw [hc 1, hc 2]
    constructor <;>
      exact min_le_min (Nat.le_refl _) (by norm_num)
  · intro resp2 hagree
    have g0 := (hagree 0 (by omega)).trans h0
    have g1 := (hagree 1 (by omega)).trans h1
    have g2 := (hagree 2 (by omega)).trans h2
    have g3 := (hagree 3 (by omega)).trans h3
    simp [apiFetchFrom, h0, h1, h2, h3, g0, g1, g2, g3]

/-- Witness for the amended C4 with a constant advertised Retry-After of
7 seconds on every throttled response. -/
theorem c4_backoff_amended_witness :
    (apiFetchFrom (fun _ => .throttled (some 7)) 0).1
        = .error "Rate limit exceeded after 3 retries" ∧
    (apiFetchFrom (fun _ => .throttled (some 7)) 0).2 = [5000, 7000, 7000] := by
  have h := c4_backoff_amended (fun _ => .throttled (some 7)) (fun _ => some 7)
    (fun _ _ => rfl)
  refine ⟨h.1, ?_⟩
  rw [h.2.1]
  norm_num [backoffWait, retryAfterValue]

-- ============================================================
-- Rate-limited API client (client.ts): fetchAllPages pagination
-- ============================================================

structure PageData where
  pageMatches : List ApiMatch
  hasMore : Bool
deriving DecidableEq

/-- Resolved outcome of one paginated list request: the apiFetch result for
that page, or the exception apiFetch threw.  Indexed by the request offset
and the conditional token that was sent. -/
inductive PageResp where
  | unchanged (lastModified : Option String)
  | page (data : Option PageData) (lastModified : Option String)
  | fetchFailure (msg : String)

structure ListFetchOut where
  matchList : List ApiMatch
  lastModified : Option String
  notModified : Bool
deriving DecidableEq

/-- The pagination loop of fetchAllPages (client.ts).  fuel bounds the
number of loop iterations (the source loop is unbounded; every theorem
supplies enough fuel for the pages the oracle serves).  The second
component records each request as (offset, conditional token sent). -/
def fetchAllPagesGo (oracle : Nat → Option String → PageResp)
    (ifModifiedSince : Option String) :
    Nat → Nat → List ApiMatch → Option String →
    Except String ListFetchOut × List (Nat × Option String)
  | 0, _, _, _ => (.error "page limit exceeded", [])
  | fuel + 1, offset, acc, lm =>
    let tok := if offset == 0 then ifModifiedSince else none
    match oracle offset tok with
    | .unchanged lm2 =>
        (.ok { matchList := [], lastModified := lm2, notModified := true }, [(offset, tok)])
    | .fetchFailure e => (.error e, [(offset, tok)])
    | .page none _ =>
        (.ok { matchList := acc, lastModified := lm, notModified := false }, [(offset, tok)])
    | .page (some d) lm2 =>
        let lm3 := if offset == 0 then lm2 else lm
        let acc2 := acc ++ d.pageMatches
        if d.hasMore then
          let r := fetchAllPagesGo oracle ifModifiedSince fuel (offset + 100) acc2 lm3
          (r.1, (offset, tok) :: r.2)
        else
          (.ok { matchList := acc2, lastModified := lm3, notModified := false },
           [(offset, tok)])

def fetchAllPages (oracle : Nat → Option String → PageResp)
    (ifModifiedSince : Option String) (fuel : Nat) :
    Except String ListFetchOut × List (Nat × Option String) :=
  fetchAllPagesGo oracle ifModifiedSince fuel 0 [] none

/-- Concatenation of the per-page match lists for c pages starting at
page index j. -/
def pageConcat (ms : Nat → List ApiMatch) : Nat → Nat → List ApiMatch
  | _, 0 => []
  | j, c + 1 => ms j ++ pageConcat ms (j + 1) c

/-- The expected request trace for c pages starting at page index j. -/
def pageReqs (ifMS : Option String) : Nat → Nat → List (Nat × Option String)
  | _, 0 => []
  | j, c + 1 => (100 * j, if j == 0 then ifMS else none) :: pageReqs ifMS (j + 1) c

theorem fetchAllPagesGo_later_pages_no_token (oracle : Nat → Option String → PageResp)
    (ifMS : Option String) :
    ∀ fuel offset acc lm req,
      req ∈ (fetchAllPagesGo oracle ifMS fuel offset acc lm).2 → req.1 ≠ 0 →
        req.2 = none := by
  intro fuel
  induction fuel with
  | zero => intro offset acc lm req hmem; simp [fetchAllPagesGo] at hmem
  | succ f ih =>
    intro offset acc lm req hmem hne
    simp only [fetchAllPagesGo] at hmem
    cases hresp : oracle offset (if offset == 0 then ifMS else none) with
    | unchanged lm2 =>
      rw [hresp] at hmem
      simp only [List.mem_singleton] at hmem
      subst hmem
      simp only [ne_eq] at hne
      simp [hne]
    | fetchFailure e =>
      rw [hresp] at hmem
      simp only [List.mem_singleton] at hmem
      subst hmem
      simp only [ne_eq] at hne
      simp [hne]
    | page d lm2 =>
      rw [hresp] at hmem
      cases d with
      | none =>
        simp only [List.mem_singleton] at hmem
        subst hmem
        simp only [ne_eq] at hne
        simp [hne]
      | some d =>
        simp only at hmem
        cases hd : d.hasMore with
        | false =>
          rw [hd] at hmem
          simp only [Bool.false_eq_true, if_false, List.mem_singleton] at hmem
          subst hmem
          simp only [ne_eq] at hne
          simp [hne]
        | true =>
          rw [hd] at hmem
          simp only [if_true, List.mem_cons] at hmem
          rcases hmem with rfl | hrec
          · simp only [ne_eq] at hne
            simp [hne]
          · exact ih _ _ _ req hrec hne

theorem fetchAllPagesGo_pages (oracle : Nat → Option String → PageResp)
    (ifMS : Option String) (ms : Nat → List ApiMatch) (lmF : Nat → Option String)
    (n : Nat)
    (h : ∀ i, i ≤ n → oracle (100 * i) (if i == 0 then ifMS else none)
        = .page (some { pageMatches := ms i, hasMore := decide (i < n) }) (lmF i)) :
    ∀ fuel j acc lm, 1 ≤ j → j ≤ n → n - j < fuel →
      fetchAllPagesGo oracle ifMS fuel (100 * j) acc lm
        = (.ok { matchList := acc ++ pageConcat ms j (n + 1 - j), lastModified := lm,
                 notModified := false }, pageReqs ifMS j (n + 1 - j)) := by
  intro fuel
  induction fuel with
  | zero => intro j acc lm _ _ hf; omega
  | succ f ih =>
    intro j acc lm hj1 hjn hf
    have hjne : j ≠ 0 := by omega
    have hoff : (100 * j == 0) = false := by
      simp [Nat.mul_eq_zero]; omega
    have hj := h j hjn
    have hjtok : (if j == 0 then ifMS else none) = none := by simp [hjne]
    rw [hjtok] at hj
    have hcnt : n + 1 - j = (n - j) + 1 := by omega
    by_cases hlt : j < n
    · have hmore : decide (j < n) = true := by simp [hlt]
      rw [hmore] at hj
      have hoff2 : 100 * j + 100 = 100 * (j + 1) := by ring
      have hrec := ih (j + 1) (acc ++ ms j) lm (by omega) (by omega) (by omega)
      have hcnt2 : n + 1 - (j + 1) = n - j := by omega
      rw [hcnt2] at hrec
      simp only [fetchAllPagesGo, hoff, cond_false, if_false, Bool.false_eq_true, hj,
        hoff2, hrec, hcnt]
      simp [pageConcat, pageReqs, hjne]
    · have hjeq : j = n := by omega
      have hmore : decide (j < n) = false := by simp [hlt]
      rw [hmore] at hj
      simp only [fetchAllPagesGo, hoff, Bool.false_eq_true, if_false, hj, hcnt]
      have hc1 : n - j = 0 := by omega
      rw [hc1]
      simp [pageConcat, pageReqs, hjne]

/-- C5: in a paginated list fetch, the conditional token is sent only with
the first page request; if the upstream reports unchanged on the first page
the operation returns an empty record list with the unchanged flag true and
issues no further page requests; otherwise it concatenates matches from
successive pages until the upstream signals no more pages, taking the
returned token from the first page's response. -/
theorem c5_pagination (oracle : Nat → Option String → PageResp) (ifMS : Option String) :
    (∀ fuel req, req ∈ (fetchAllPages oracle ifMS fuel).2 → req.1 ≠ 0 → req.2 = none) ∧
    (∀ lm2 fuel, oracle 0 ifMS = .unchanged lm2 → 1 ≤ fuel →
      fetchAllPages oracle ifMS fuel
        = (.ok { matchList := [], lastModified := lm2, notModified := true },
           [(0, ifMS)])) ∧
    (∀ (n : Nat) (ms : Nat → List ApiMatch) (lmF : Nat → Option String) (fuel : Nat),
      (∀ i, i ≤ n → oracle (100 * i) (if i == 0 then ifMS else none)
          = .page (some { pageMatches := ms i, hasMore := decide (i < n) }) (lmF i)) →
      n < fuel →
      fetchAllPages oracle ifMS fuel
        = (.ok { matchList := pageConcat ms 0 (n + 1), lastModified := lmF 0,
                 notModified := false }, pageReqs ifMS 0 (n + 1))) := by
  refine ⟨?_, ?_, ?_⟩
  · intro fuel req hmem
    exact fetchAllPagesGo_later_pages_no_token oracle ifMS fuel 0 [] none req hmem
  · intro lm2 fuel h hfuel
    cases fuel with
    | zero => omega
    | succ f => simp [fetchAllPages, fetchAllPagesGo, h]
  · intro n ms lmF fuel h hfuel
    cases fuel with
    | zero => omega
    | succ f =>
      have h0 := h 0 (by omega)
      simp only [Nat.mul_zero, beq_self_eq_true, if_true] at h0
      by_cases hn : n = 0
      · subst hn
        have hmore : decide ((0 : Nat) < 0) = false := by simp
        rw [hmore] at h0
        simp [fetchAllPages, fetchAllPagesGo, h0, pageConcat, pageReqs]
      · have hmore : decide ((0 : Nat) < n) = true := by simp; omega
        rw [hmore] at h0
        have hrec := fetchAllPagesGo_pages oracle ifMS ms lmF n h f 1
          ([] ++ ms 0) (lmF 0) (by omega) (by omega) (by omega)
        have hoff : (0 : Nat) + 100 = 100 * 1 := by ring
        simp only [fetchAllPages, fetchAllPagesGo, beq_self_eq_true, if_true, h0,
          hoff, hrec]
        have hc : n + 1 - 1 = n := by omega
        rw [hc]
        simp [pageConcat, pageReqs]

-- Concrete teams and matches used by witnesses.

def dsTeam : ApiTeam := { id := DEADLY_SINS_TEAM_ID, name := "Deadly Sins" }

def oppTeamA : ApiTeam := { id := "teamA", name := "Opponents A" }

def oppTeamB : ApiTeam := { id := "teamB", name := "Opponents B" }

def exMatchDS : ApiMatch :=
  { id := "m-ds", scheduledTime := "t1", status := .COMPLETED,
    homeTeam := dsTeam, awayTeam := oppTeamA }

def exMatchOther : ApiMatch :=
  { id := "m-other", scheduledTime := "t2", status := .COMPLETED,
    homeTeam := oppTeamA, awayTeam := oppTeamB }

def c5Oracle : Nat → Option String → PageResp := fun off _ =>
  if off == 0 then .page (some { pageMatches := [exMatchDS], hasMore := true }) (some "L0")
  else .page (some { pageMatches := [exMatchOther], hasMore := false }) (some "L1")

/-- Witness for C5: a two-page fetch with a stored token concatenates both
pages, keeps the first page's token, and sends the conditional token only
with the first request. -/
theorem c5_pagination_witness :
    fetchAllPages c5Oracle (some "T") 5
      = (.ok { matchList := [exMatchDS, exMatchOther], lastModified := some "L0",
               notModified := false }, [(0, some "T"), (100, none)]) := by
  have hpages : ∀ i, i ≤ 1 → c5Oracle (100 * i) (if i == 0 then (some "T") else none)
      = .page (some { pageMatches := (fun i => if i = 0 then [exMatchDS] else [exMatchOther]) i,
                      hasMore := decide (i < 1) })
          ((fun i => if i = 0 then some "L0" else some "L1") i) := by
    intro i hi
    interval_cases i <;> simp [c5Oracle]
  have h := (c5_pagination c5Oracle (some "T")).2.2 1
    (fun i => if i = 0 then [exMatchDS] else [exMatchOther])
    (fun i => if i = 0 then some "L0" else some "L1") 5 hpages (by omega)
  rw [h]
  simp [pageConcat, pageReqs]

-- ============================================================
-- Persistence model (Supabase tables) and sync orchestrator state
-- ============================================================

structure TeamRow where
  id : String
  name : String
  image_url : Option String
  venue : Option String
  is_deadly_sins : Bool
deriving DecidableEq

structure CompetitionRow where
  id : String
  name : String
  type : String
  status : Option String
  start_date : Option String
  season : Option Int
deriving DecidableEq

structure MatchRow where
  id : String
  scheduled_time : String
  status : MatchStatus
  home_team_id : String
  away_team_id : String
  home_score : Option Int
  away_score : Option Int
  competition_id : Option String
  conference_id : Option String
  league_id : Option String
  involves_deadly_sins : Bool
  replay_fetched : Bool
  sim_version : Option String
deriving DecidableEq

structure EventRow where
  match_id : String
  turn : Nat
  type : String
  description : String
  players_involved : List String
  home_score : Int
  away_score : Int
  context : Option EventContext
deriving DecidableEq

structure SyncLogRow where
  endpoint : String
  last_modified : Option String
  http_status : Nat
  matches_found : Nat
  matches_new : Nat
  error : Option String
deriving DecidableEq

/-- The relational store.  Lists are in insertion order; the fetched_at
ordering of sync_log is its list order. -/
structure DB where
  teams : List TeamRow := []
  competitions : List CompetitionRow := []
  conferences : List RefRow := []
  leagues : List RefRow := []
  matchesTbl : List MatchRow := []
  player_match_stats : List PlayerStatRow := []
  match_events : List EventRow := []
  energy_snapshots : List EnergySnapRow := []
  sync_log : List SyncLogRow := []
deriving DecidableEq

/-- One tag per attempted persistence write, recorded whether or not the
write succeeds. -/
inductive OpTag where
  | writeTeams
  | writeCompetitions
  | writeConferences
  | writeLeagues
  | upsertMatches
  | updateMatches
  | writeStats
  | writeEvents
  | writeEnergy
  | insertSyncLog (endpoint : String)
deriving DecidableEq

structure SyncState where
  db : DB
  wtick : Nat
  trace : List OpTag
deriving DecidableEq

structure ReplayResult where
  data : Option ApiReplayData
  notModified : Bool
  lastModified : Option String
deriving DecidableEq

/-- The environment a sync run executes against: resolved outcomes of the
three client operations (Except.error is an exception thrown by the
client), plus the write-failure schedule of the persistence layer. -/
structure Env where
  upcoming : Option String → Except String ListFetchOut
  recent : Option String → Except String ListFetchOut
  replay : String → Option String → Except String ReplayResult
  wFail : Nat → Bool

/-- One persistence write: always consumes a tick and records its tag; the
table update applies only when the write does not fail. -/
def dbWrite (env : Env) (s : SyncState) (tag : OpTag) (f : DB → DB) : SyncState :=
  { db := if env.wFail s.wtick then s.db else f s.db
    wtick := s.wtick + 1
    trace := s.trace ++ [tag] }

/-- Postgres upsert with ON CONFLICT DO UPDATE on a key: replaces the
matching row or appends. -/
def upsertRow {α κ : Type} [BEq κ] (key : α → κ) (r : α) (tbl : List α) : List α :=
  if tbl.any (fun x => key x == key r) then
    tbl.map (fun x => if key x == key r then r else x)
  else tbl ++ [r]

/-- Postgres insert with ON CONFLICT DO NOTHING on a key. -/
def insertIgnoreRow {α κ : Type} [BEq κ] (key : α → κ) (r : α) (tbl : List α) : List α :=
  if tbl.any (fun x => key x == key r) then tbl else tbl ++ [r]

def insertIgnoreBatch {α κ : Type} [BEq κ] (key : α → κ) (batch : List α)
    (tbl : List α) : List α :=
  batch.foldl (fun t r => insertIgnoreRow key r t) tbl

def upsertBatch {α κ : Type} [BEq κ] (key : α → κ) (batch : List α)
    (tbl : List α) : List α :=
  batch.foldl (fun t r => upsertRow key r t) tbl

/-- The teams row written by upsertTeam (sync.ts). -/
def teamRowOf (t : ApiTeam) : TeamRow :=
  { id := t.id, name := t.name, image_url := t.imageUrl, venue := t.venue,
    is_deadly_sins := t.id == DEADLY_SINS_TEAM_ID }

def upsertTeam (env : Env) (s : SyncState) (t : ApiTeam) : SyncState :=
  dbWrite env s .writeTeams fun db =>
    { db with teams := upsertRow (fun x => x.id) (teamRowOf t) db.teams }

def compRowOf (c : ApiCompetition) : CompetitionRow :=
  { id := c.id, name := c.name, type := c.type, status := c.status,
    start_date := c.startDate, season := c.season }

/-- The matches row written by upsertMatch.  replay_fetched and sim_version
are not part of the upsert payload: an insert takes the column defaults
(false / null) and a conflicting update leaves the stored values alone. -/
def matchRowOf (m : ApiMatch) (replayFetched : Bool) (simVersion : Option String) :
    MatchRow :=
  { id := m.id
    scheduled_time := m.scheduledTime
    status := m.status
    home_team_id := m.homeTeam.id
    away_team_id := m.awayTeam.id
    home_score := m.homeScore
    away_score := m.awayScore
    competition_id := m.competition.map fun c => c.id
    conference_id := m.conference.map fun c => c.id
    league_id := m.league.map fun c => c.id
    involves_deadly_sins :=
      m.homeTeam.id == DEADLY_SINS_TEAM_ID || m.awayTeam.id == DEADLY_SINS_TEAM_ID
    replay_fetched := replayFetched
    sim_version := simVersion }

def upsertMatchRow (m : ApiMatch) (tbl : List MatchRow) : List MatchRow :=
  match tbl.find? (fun x => x.id == m.id) with
  | some old =>
      tbl.map fun x =>
        if x.id == m.id then matchRowOf m old.replay_fetched old.sim_version else x
  | none => tbl ++ [matchRowOf m false none]

/-- upsertMatch (sync.ts): teams first (FK order), then the optional
competition, conference and league rows, then the match row; returns the
involves-deadly-sins flag. -/
def upsertMatch (env : Env) (s : SyncState) (m : ApiMatch) : SyncState × Bool :=
  let involves :=
    m.homeTeam.id == DEADLY_SINS_TEAM_ID || m.awayTeam.id == DEADLY_SINS_TEAM_ID
  let s1 := upsertTeam env s m.homeTeam
  let s2 := upsertTeam env s1 m.awayTeam
  let s3 := match m.competition with
    | some c => dbWrite env s2 .writeCompetitions fun db =>
        { db with competitions := upsertRow (fun x => x.id) (compRowOf c) db.competitions }
    | none => s2
  let s4 := match m.conference with
    | some c => dbWrite env s3 .writeConferences fun db =>
        { db with conferences := upsertRow (fun x => x.id) c db.conferences }
    | none => s3
  let s5 := match m.league with
    | some c => dbWrite env s4 .writeLeagues fun db =>
        { db with leagues := upsertRow (fun x => x.id) c db.leagues }
    | none => s4
  let s6 := dbWrite env s5 .upsertMatches fun db =>
    { db with matchesTbl := upsertMatchRow m db.matchesTbl }
  (s6, involves)

/-- Batches of 500 rows, as sliced by the insertion loops of
persistReplayData. -/
def chunks500 {α : Type} : List α → List (List α)
  | [] => []
  | x :: xs => ((x :: xs).take 500) :: chunks500 ((x :: xs).drop 500)
termination_by l => l.length
decreasing_by simp [List.length_drop]; omega

def eventRowOf (matchId : String) (e : ApiGameEvent) : EventRow :=
  { match_id := matchId, turn := e.turn, type := e.type, description := e.description,
    players_involved := e.playersInvolved, home_score := e.homeScore,
    away_score := e.awayScore, context := e.context }

def eventKey (e : EventRow) : String × Nat × String := (e.match_id, e.turn, e.type)

def snapKey (r : EnergySnapRow) : String × String × Nat :=
  (r.match_id, r.player_id, r.turn)

def statKey (r : PlayerStatRow) : String × String := (r.match_id, r.player_id)

/-- The matches-table update issued at the start of persistReplayData. -/
def replayMatchUpdate (matchId : String) (info : ReplayMatchInfo) (x : MatchRow) :
    MatchRow :=
  if x.id == matchId then
    { x with
      sim_version := some info.simVersion
      home_score := some info.homeScore
      away_score := some info.awayScore
      status := .COMPLETED
      replay_fetched := true }
  else x

def writeEventBatches (env : Env) (s : SyncState) (batches : List (List EventRow)) :
    SyncState :=
  batches.foldl
    (fun acc b => dbWrite env acc .writeEvents fun db =>
      { db with match_events := insertIgnoreBatch eventKey b db.match_events })
    s

def writeEnergyBatches (env : Env) (s : SyncState) (batches : List (List EnergySnapRow)) :
    SyncState :=
  batches.foldl
    (fun acc b => dbWrite env acc .writeEnergy fun db =>
      { db with energy_snapshots := insertIgnoreBatch snapKey b db.energy_snapshots })
    s

/-- persistReplayData (sync.ts): match update, player stats (home then
away), event batches, energy snapshot batches. -/
def persistReplayData (env : Env) (s : SyncState) (matchId : String)
    (replay : ApiReplayData) : SyncState :=
  let d := replay.data
  let s1 := dbWrite env s .updateMatches fun db =>
    { db with matchesTbl := db.matchesTbl.map (replayMatchUpdate matchId d.matchInfo) }
  let s2 := dbWrite env s1 .writeStats fun db =>
    { db with player_match_stats :=
        upsertBatch statKey (statRows matchId replay) db.player_match_stats }
  let s3 := writeEventBatches env s2 (chunks500 (d.events.map (eventRowOf matchId)))
  let snapshots := extractEnergySnapshots matchId d.events
  if snapshots.length > 0 then writeEnergyBatches env s3 (chunks500 snapshots)
  else s3

structure LogParams where
  httpStatus : Nat
  lastModified : Option String := none
  matchesFound : Nat := 0
  matchesNew : Nat := 0
  error : Option String := none

/-- logSync (sync.ts): append one immutable audit row. -/
def logSync (env : Env) (s : SyncState) (endpoint : String) (p : LogParams) :
    SyncState :=
  dbWrite env s (.insertSyncLog endpoint) fun db =>
    { db with sync_log := db.sync_log ++
        [{ endpoint := endpoint, last_modified := p.lastModified,
           http_status := p.httpStatus, matches_found := p.matchesFound,
           matches_new := p.matchesNew, error := p.error }] }

-- ============================================================
-- syncMatchReplay (sync.ts)
-- ============================================================

def replayEndpointFor (matchId : String) : String := "replay:" ++ matchId

/-- The conditional token lookup of syncMatchReplay: the last_modified of
the most recent sync_log row with this match's replay endpoint and
http_status 200. -/
def replayToken (db : DB) (matchId : String) : Option String :=
  (((db.sync_log.filter fun r =>
        r.endpoint == replayEndpointFor matchId && r.http_status == 200).reverse).head?).bind
    fun r => r.last_modified

structure ReplaySyncOut where
  success : Bool
  notModified : Bool
deriving DecidableEq

/-- The body of the try block of syncMatchReplay: the only throwing step is
the client call, which happens before any write. -/
def syncMatchReplayBody (env : Env) (matchId : String) (s : SyncState) :
    Except String (SyncState × ReplaySyncOut) :=
  match env.replay matchId (replayToken s.db matchId) with
  | .error e => .error e
  | .ok r =>
    let s1 := logSync env s (replayEndpointFor matchId)
      { httpStatus := if r.notModified then 304 else 200, lastModified := r.lastModified,
        matchesFound := 1, matchesNew := if r.notModified then 0 else 1 }
    match r.notModified, r.data with
    | false, some rd =>
        .ok (persistReplayData env s1 matchId rd, { success := true, notModified := false })
    | nm, _ => .ok (s1, { success := true, notModified := nm })

/-- syncMatchReplay (sync.ts): the catch block logs the failure and returns
success=false. -/
def syncMatchReplay (env : Env) (matchId : String) (s : SyncState) :
    Except String (SyncState × ReplaySyncOut) :=
  match syncMatchReplayBody env matchId s with
  | .ok out => .ok out
  | .error e =>
      .ok (logSync env s (replayEndpointFor matchId) { httpStatus := 0, error := some e },
           { success := false, notModified := false })

-- ============================================================
-- syncMatches (sync.ts): token lookup and the two poll phases
-- ============================================================

/-- The filter of the single sync_log query at the start of syncMatches. -/
def isCondRow (r : SyncLogRow) : Bool :=
  (r.endpoint == "upcoming" || r.endpoint == "recent") && r.http_status == 200

/-- The two rows that query returns: order by fetched_at descending,
limit 2, over BOTH endpoints combined. -/
def top2Succ (log : List SyncLogRow) : List SyncLogRow :=
  ((log.filter isCondRow).reverse).take 2

def mapFind (m : List (String × Option String)) (k : String) : Option (Option String) :=
  (m.find? fun p => p.1 == k).map fun p => p.2

/-- JS falsiness of lastModifiedMap[endpoint]: absent, null, or "". -/
def jsFalsyTok : Option (Option String) → Bool
  | none => true
  | some none => true
  | some (some str) => str == ""

def mapSet (m : List (String × Option String)) (k : String) (v : Option String) :
    List (String × Option String) :=
  if m.any (fun p => p.1 == k) then m.map (fun p => if p.1 == k then (k, v) else p)
  else m ++ [(k, v)]

/-- The lastModifiedMap loop of syncMatches: keep the first row per
endpoint whose stored value is truthy. -/
def buildLastModifiedMap (rows : List SyncLogRow) : List (String × Option String) :=
  rows.foldl
    (fun m r =>
      if r.endpoint != "" && jsFalsyTok (mapFind m r.endpoint) then
        mapSet m r.endpoint r.last_modified
      else m)
    []

/-- lastModifiedMap[k] ?? undefined. -/
def mapGetTok (m : List (String × Option String)) (k : String) : Option String :=
  match mapFind m k with
  | some v => v
  | none => none

/-- The pair of conditional tokens syncMatches computes before polling:
(upcoming token, recent token). -/
def condTokens (log : List SyncLogRow) : Option String × Option String :=
  let m := buildLastModifiedMap (top2Succ log)
  (mapGetTok m "upcoming", mapGetTok m "recent")

def upsertAll (env : Env) (ms : List ApiMatch) (s : SyncState) : SyncState :=
  ms.foldl (fun acc m => (upsertMatch env acc m).1) s

/-- The replay backfill loop of syncMatches: for each completed tracked
match, read its stored replay_fetched flag and fetch the detail when the
flag is falsy, counting it as queued. -/
def backfillLoop (env : Env) :
    List ApiMatch → SyncState → Nat → Except String (SyncState × Nat)
  | [], s, q => .ok (s, q)
  | m :: rest, s, q =>
    let existing := s.db.matchesTbl.find? fun x => x.id == m.id
    if !((existing.map fun x => x.replay_fetched).getD false) then
      match syncMatchReplay env m.id s with
      | .ok (s1, _) => backfillLoop env rest s1 (q + 1)
      | .error e => .error e
    else backfillLoop env rest s q

/-- The try block for the upcoming poll: log the outcome, then upsert the
tracked team's matches when the result changed. -/
def upcomingPhase (env : Env) (s : SyncState) (tok : Option String) :
    Except String (SyncState × Nat) :=
  match env.upcoming tok with
  | .error e => .error e
  | .ok r =>
    let s1 := logSync env s "upcoming"
      { httpStatus := if r.notModified then 304 else 200, lastModified := r.lastModified,
        matchesFound := r.matchList.length }
    if r.notModified then .ok (s1, 0)
    else
      .ok (upsertAll env (filterDeadlySinsMatches r.matchList) s1,
           (filterDeadlySinsMatches r.matchList).length)

/-- The try block for the recent poll: log the outcome, upsert ALL returned
matches, then backfill replays for completed tracked matches without
replay data. -/
def recentPhase (env : Env) (s : SyncState) (tok : Option String) :
    Except String (SyncState × Nat × Nat) :=
  match env.recent tok with
  | .error e => .error e
  | .ok r =>
    let s1 := logSync env s "recent"
      { httpStatus := if r.notModified then 304 else 200, lastModified := r.lastModified,
        matchesFound := r.matchList.length }
    if r.notModified then .ok (s1, 0, 0)
    else
      let s2 := upsertAll env r.matchList s1
      let ds := (filterDeadlySinsMatches r.matchList).filter
        fun m => decide (m.status = MatchStatus.COMPLETED)
      match backfillLoop env ds s2 0 with
      | .error e => .error e
      | .ok (s3, q) => .ok (s3, r.matchList.length, q)

structure SyncResults where
  upcoming : Nat
  recent : Nat
  replaysQueued : Nat
  errors : Nat
deriving DecidableEq

/-- syncMatches (sync.ts).  Each phase sits in a try/catch whose handler
logs an error row for that endpoint and bumps the error count.  The only
throwing step of a phase is its client call, which precedes every write of
that phase, so the handler resumes from the state at the start of the
phase. -/
def syncMatches (env : Env) (s : SyncState) : Except String (SyncState × SyncResults) :=
  let toks := condTokens s.db.sync_log
  match upcomingPhase env s toks.1 with
  | .ok (s1, upCount) =>
    (match recentPhase env s1 toks.2 with
     | .ok (s2, recCount, q) =>
        .ok (s2, { upcoming := upCount, recent := recCount, replaysQueued := q,
                   errors := 0 })
     | .error e =>
        .ok (logSync env s1 "recent" { httpStatus := 0, error := some e },
             { upcoming := upCount, recent := 0, replaysQueued := 0, errors := 1 }))
  | .error e =>
    let s1 := logSync env s "upcoming" { httpStatus := 0, error := some e }
    (match recentPhase env s1 toks.2 with
     | .ok (s2, recCount, q) =>
        .ok (s2, { upcoming := 0, recent := recCount, replaysQueued := q, errors := 1 })
     | .error e2 =>
        .ok (logSync env s1 "recent" { httpStatus := 0, error := some e2 },
             { upcoming := 0, recent := 0, replaysQueued := 0, errors := 2 }))

/-- A sequence of orchestrator invocations, each against its own
environment. -/
inductive OrchestratorCall where
  | fullSync (env : Env)
  | replaySync (env : Env) (matchId : String)

def runCall (c : OrchestratorCall) (s : SyncState) : SyncState :=
  match c with
  | .fullSync env =>
    (match syncMatches env s with
     | .ok (s1, _) => s1
     | .error _ => s)
  | .replaySync env matchId =>
    (match syncMatchReplay env matchId s with
     | .ok (s1, _) => s1
     | .error _ => s)

def runCalls (cs : List OrchestratorCall) (s : SyncState) : SyncState :=
  cs.foldl (fun acc c => runCall c acc) s

-- ============================================================
-- C1: the two public operations never throw
-- ============================================================

theorem exists_ok_of_ne_error {α : Type} (x : Except String α)
    (h : ∀ e, x ≠ .error e) : ∃ a, x = .ok a := by
  cases x with
  | ok a => exact ⟨a, rfl⟩
  | error e => exact absurd rfl (h e)

theorem syncMatchReplay_ne_error (env : Env) (matchId : String) (s : SyncState) :
    ∀ e, syncMatchReplay env matchId s ≠ .error e := by
  intro e
  unfold syncMatchReplay
  cases syncMatchReplayBody env matchId s <;> simp

theorem backfillLoop_ne_error (env : Env) :
    ∀ ms s q e, backfillLoop env ms s q ≠ .error e := by
  intro ms
  induction ms with
  | nil => intro s q e; simp [backfillLoop]
  | cons m rest ih =>
    intro s q e
    simp only [backfillLoop]
    cases hflag : (((s.db.matchesTbl.find? fun x => x.id == m.id).map
        fun x => x.replay_fetched).getD false) with
    | true => simpa [hflag] using ih s q e
    | false =>
      simp only [hflag, Bool.not_false, if_true]
      obtain ⟨⟨s1, o⟩, hp⟩ := exists_ok_of_ne_error _
        (syncMatchReplay_ne_error env m.id s)
      rw [hp]
      exact ih s1 (q + 1) e

theorem upcomingPhase_error (env : Env) (s : SyncState) (tok : Option String)
    (e : String) (h : env.upcoming tok = .error e) :
    upcomingPhase env s tok = .error e := by
  unfold upcomingPhase
  rw [h]

theorem recentPhase_error (env : Env) (s : SyncState) (tok : Option String)
    (e : String) (h : env.recent tok = .error e) :
    recentPhase env s tok = .error e := by
  unfold recentPhase
  rw [h]

theorem upcomingPhase_ne_error_of_ok (env : Env) (s : SyncState) (tok : Option String)
    (r : ListFetchOut) (h : env.upcoming tok = .ok r) :
    ∀ e, upcomingPhase env s tok ≠ .error e := by
  intro e hcontra
  unfold upcomingPhase at hcontra
  rw [h] at hcontra
  cases hnm : r.notModified <;> simp [hnm] at hcontra

theorem recentPhase_ne_error_of_ok (env : Env) (s : SyncState) (tok : Option String)
    (r : ListFetchOut) (h : env.recent tok = .ok r) :
    ∀ e, recentPhase env s tok ≠ .error e := by
  intro e hcontra
  unfold recentPhase at hcontra
  rw [h] at hcontra
  cases hnm : r.notModified with
  | true => simp [hnm] at hcontra
  | false =>
    simp only [hnm, Bool.false_eq_true, if_false] at hcontra
    split at hcontra
    · next heq => exact absurd heq (backfillLoop_ne_error env _ _ _ _)
    · exact absurd hcontra (by simp)

theorem syncMatchReplay_success_eq (env : Env) (matchId : String) (s : SyncState) :
    ∃ q : SyncState × ReplaySyncOut, syncMatchReplay env matchId s = .ok q ∧
      q.2.success = (env.replay matchId (replayToken s.db matchId)).isOk := by
  unfold syncMatchReplay syncMatchReplayBody
  cases henv : env.replay matchId (replayToken s.db matchId) with
  | error e => exact ⟨_, rfl, rfl⟩
  | ok r =>
    rcases r with ⟨data, nm, lm⟩
    cases nm with
    | true => exact ⟨_, rfl, rfl⟩
    | false =>
      cases data with
      | some rd => exact ⟨_, rfl, rfl⟩
      | none => exact ⟨_, rfl, rfl⟩

-- ============================================================
-- C10: the two derived flags are the pure tracked-team predicates
-- ============================================================

def teamRowOk (t : TeamRow) : Prop :=
  t.is_deadly_sins = (t.id == DEADLY_SINS_TEAM_ID)

def matchRowOk (m : MatchRow) : Prop :=
  m.involves_deadly_sins =
    (m.home_team_id == DEADLY_SINS_TEAM_ID || m.away_team_id == DEADLY_SINS_TEAM_ID)

def flagsInvariant (db : DB) : Prop :=
  (∀ t ∈ db.teams, teamRowOk t) ∧ (∀ m ∈ db.matchesTbl, matchRowOk m)

theorem mem_upsertRow {α κ : Type} [BEq κ] (key : α → κ) (r : α) (tbl : List α)
    (x : α) (hx : x ∈ upsertRow key r tbl) : x ∈ tbl ∨ x = r := by
  unfold upsertRow at hx
  split at hx
  · obtain ⟨y, hy, hxy⟩ := List.mem_map.mp hx
    by_cases hk : (key y == key r) = true
    · rw [if_pos hk] at hxy
      right; exact hxy.symm
    · rw [if_neg hk] at hxy
      left; exact hxy ▸ hy
  · rcases List.mem_append.mp hx with hmem | hmem
    · left; exact hmem
    · right; simpa using hmem

theorem mem_upsertMatchRow (m : ApiMatch) (tbl : List MatchRow) (x : MatchRow)
    (hx : x ∈ upsertMatchRow m tbl) :
    x ∈ tbl ∨ ∃ rf sv, x = matchRowOf m rf sv := by
  unfold upsertMatchRow at hx
  split at hx
  · obtain ⟨y, hy, hxy⟩ := List.mem_map.mp hx
    by_cases hk : (y.id == m.id) = true
    · rw [if_pos hk] at hxy
      right; exact ⟨_, _, hxy.symm⟩
    · rw [if_neg hk] at hxy
      left; exact hxy ▸ hy
  · rcases List.mem_append.mp hx with hmem | hmem
    · left; exact hmem
    · right; exact ⟨false, none, by simpa using hmem⟩

theorem matchRowOk_matchRowOf (m : ApiMatch) (rf : Bool) (sv : Option String) :
    matchRowOk (matchRowOf m rf sv) := rfl

theorem matchRowOk_replayMatchUpdate (mid : String) (info : ReplayMatchInfo)
    (x : MatchRow) (h : matchRowOk x) : matchRowOk (replayMatchUpdate mid info x) := by
  unfold replayMatchUpdate
  split
  · simpa [matchRowOk] using h
  · exact h

theorem flags_dbWrite (env : Env) (s : SyncState) (tag : OpTag) (f : DB → DB)
    (hf : ∀ db, flagsInvariant db → flagsInvariant (f db))
    (h : flagsInvariant s.db) : flagsInvariant (dbWrite env s tag f).db := by
  unfold dbWrite
  dsimp only
  split
  · exact h
  · exact hf s.db h

theorem flags_of_untouched (env : Env) (s : SyncState) (tag : OpTag) (f : DB → DB)
    (hf : ∀ db, (f db).teams = db.teams ∧ (f db).matchesTbl = db.matchesTbl)
    (h : flagsInvariant s.db) : flagsInvariant (dbWrite env s tag f).db := by
  refine flags_dbWrite env s tag f (fun db hdb => ?_) h
  constructor
  · rw [(hf db).1]; exact hdb.1
  · rw [(hf db).2]; exact hdb.2

theorem flags_upsertTeam (env : Env) (s : SyncState) (t : ApiTeam)
    (h : flagsInvariant s.db) : flagsInvariant (upsertTeam env s t).db := by
  refine flags_dbWrite env s _ _ (fun db hdb => ⟨?_, hdb.2⟩) h
  intro x hx
  rcases mem_upsertRow _ _ _ _ hx with hmem | rfl
  · exact hdb.1 x hmem
  · rfl

theorem flags_matchWrite (env : Env) (s : SyncState) (m : ApiMatch)
    (h : flagsInvariant s.db) :
    flagsInvariant (dbWrite env s .upsertMatches
      (fun db => { db with matchesTbl := upsertMatchRow m db.matchesTbl })).db := by
  refine flags_dbWrite env s _ _ (fun db hdb => ⟨hdb.1, ?_⟩) h
  intro x hx
  rcases mem_upsertMatchRow m _ x hx with hmem | ⟨rf, sv, rfl⟩
  · exact hdb.2 x hmem
  · exact matchRowOk_matchRowOf m rf sv

theorem flags_compWrite (env : Env) (s : SyncState) (c : ApiCompetition)
    (h : flagsInvariant s.db) :
    flagsInvariant (dbWrite env s .writeCompetitions
      (fun db => { db with competitions := upsertRow (fun x => x.id) (compRowOf c) db.competitions })).db :=
  flags_of_untouched env s _ _ (fun _ => ⟨rfl, rfl⟩) h

theorem flags_confWrite (env : Env) (s : SyncState) (c : RefRow)
    (h : flagsInvariant s.db) :
    flagsInvariant (dbWrite env s .writeConferences
      (fun db => { db with conferences := upsertRow (fun x => x.id) c db.conferences })).db :=
  flags_of_untouched env s _ _ (fun _ => ⟨rfl, rfl⟩) h

theorem flags_leagueWrite (env : Env) (s : SyncState) (c : RefRow)
    (h : flagsInvariant s.db) :
    flagsInvariant (dbWrite env s .writeLeagues
      (fun db => { db with leagues := upsertRow (fun x => x.id) c db.leagues })).db :=
  flags_of_untouched env s _ _ (fun _ => ⟨rfl, rfl⟩) h

theorem flags_upsertMatch (env : Env) (s : SyncState) (m : ApiMatch)
    (h : flagsInvariant s.db) : flagsInvariant ((upsertMatch env s m).1).db := by
  cases hc : m.competition <;> cases hcf : m.conference <;> cases hl : m.league <;>
    simp only [upsertMatch, hc, hcf, hl] <;>
    repeat
      first
        | exact h
        | apply flags_matchWrite
        | apply flags_compWrite
        | apply flags_confWrite
        | apply flags_leagueWrite
        | apply flags_upsertTeam

theorem flags_upsertAll (env : Env) (ms : List ApiMatch) :
    ∀ s, flagsInvariant s.db → flagsInvariant (upsertAll env ms s).db := by
  induction ms with
  | nil => intro s h; exact h
  | cons m rest ih =>
    intro s h
    have hstep := flags_upsertMatch env s m h
    simpa [upsertAll, List.foldl_cons] using ih ((upsertMatch env s m).1) hstep

theorem flags_logSync (env : Env) (s : SyncState) (endpoint : String) (p : LogParams)
    (h : flagsInvariant s.db) : flagsInvariant (logSync env s endpoint p).db :=
  flags_of_untouched env s _ _ (fun _ => ⟨rfl, rfl⟩) h

theorem flags_writeEventBatches (env : Env) (batches : List (List EventRow)) :
    ∀ s, flagsInvariant s.db → flagsInvariant (writeEventBatches env s batches).db := by
  induction batches with
  | nil => intro s h; exact h
  | cons b rest ih =>
    intro s h
    have hstep : flagsInvariant (dbWrite env s .writeEvents (fun db =>
        { db with match_events := insertIgnoreBatch eventKey b db.match_events })).db :=
      flags_of_untouched env s _ _ (fun _ => ⟨rfl, rfl⟩) h
    simpa [writeEventBatches, List.foldl_cons] using ih _ hstep

theorem flags_writeEnergyBatches (env : Env) (batches : List (List EnergySnapRow)) :
    ∀ s, flagsInvariant s.db → flagsInvariant (writeEnergyBatches env s batches).db := by
  induction batches with
  | nil => intro s h; exact h
  | cons b rest ih =>
    intro s h
    have hstep : flagsInvariant (dbWrite env s .writeEnergy (fun db =>
        { db with energy_snapshots := insertIgnoreBatch snapKey b db.energy_snapshots })).db :=
      flags_of_untouched env s _ _ (fun _ => ⟨rfl, rfl⟩) h
    simpa [writeEnergyBatches, List.foldl_cons] using ih _ hstep

theorem flags_persistReplayData (env : Env) (s : SyncState) (matchId : String)
    (replay : ApiReplayData) (h : flagsInvariant s.db) :
    flagsInvariant (persistReplayData env s matchId replay).db := by
  unfold persistReplayData
  dsimp only
  have h1 : flagsInvariant (dbWrite env s .updateMatches (fun db =>
      { db with matchesTbl :=
          db.matchesTbl.map (replayMatchUpdate matchId replay.data.matchInfo) })).db := by
    refine flags_dbWrite env s _ _ (fun db hdb => ⟨hdb.1, ?_⟩) h
    intro x hx
    obtain ⟨y, hy, hxy⟩ := List.mem_map.mp hx
    exact hxy ▸ matchRowOk_replayMatchUpdate matchId replay.data.matchInfo y (hdb.2 y hy)
  have h2 := flags_of_untouched env _ .writeStats (fun db =>
      { db with player_match_stats :=
          upsertBatch statKey (statRows matchId replay) db.player_match_stats })
      (fun _ => ⟨rfl, rfl⟩) h1
  have h3 := flags_writeEventBatches env
    (chunks500 (replay.data.events.map (eventRowOf matchId))) _ h2
  split
  · exact flags_writeEnergyBatches env _ _ h3
  · exact h3

theorem flags_syncMatchReplay (env : Env) (matchId : String) (s : SyncState)
    (s1 : SyncState) (o : ReplaySyncOut)
    (hrun : syncMatchReplay env matchId s = .ok (s1, o))
    (h : flagsInvariant s.db) : flagsInvariant s1.db := by
  unfold syncMatchReplay syncMatchReplayBody at hrun
  cases henv : env.replay matchId (replayToken s.db matchId) with
  | error e =>
    rw [henv] at hrun
    simp only [Except.ok.injEq, Prod.mk.injEq] at hrun
    rw [← hrun.1]
    exact flags_logSync env s _ _ h
  | ok r =>
    rw [henv] at hrun
    have hlog := flags_logSync env s (replayEndpointFor matchId)
      { httpStatus := if r.notModified then 304 else 200, lastModified := r.lastModified,
        matchesFound := 1, matchesNew := if r.notModified then 0 else 1 } h
    rcases r with ⟨data, nm, lm⟩
    cases nm with
    | true =>
      simp only [Except.ok.injEq, Prod.mk.injEq] at hrun
      rw [← hrun.1]
      exact hlog
    | false =>
      cases data with
      | some rd =>
        simp only [Except.ok.injEq, Prod.mk.injEq] at hrun
        rw [← hrun.1]
        exact flags_persistReplayData env _ matchId rd hlog
      | none =>
        simp only [Except.ok.injEq, Prod.mk.injEq] at hrun
        rw [← hrun.1]
        exact hlog

theorem flags_backfillLoop (env : Env) :
    ∀ ms s q s1 q1, backfillLoop env ms s q = .ok (s1, q1) →
      flagsInvariant s.db → flagsInvariant s1.db := by
  intro ms
  induction ms with
  | nil =>
    intro s q s1 q1 hrun h
    simp only [backfillLoop, Except.ok.injEq, Prod.mk.injEq] at hrun
    rw [← hrun.1]
    exact h
  | cons m rest ih =>
    intro s q s1 q1 hrun h
    simp only [backfillLoop] at hrun
    split at hrun
    · obtain ⟨⟨sr, o⟩, hp⟩ := exists_ok_of_ne_error _
        (syncMatchReplay_ne_error env m.id s)
      rw [hp] at hrun
      exact ih sr (q + 1) s1 q1 hrun (flags_syncMatchReplay env m.id s sr o hp h)
    · exact ih s q s1 q1 hrun h

theorem flags_upcomingPhase (env : Env) (s : SyncState) (tok : Option String)
    (s1 : SyncState) (n : Nat) (hrun : upcomingPhase env s tok = .ok (s1, n))
    (h : flagsInvariant s.db) : flagsInvariant s1.db := by
  unfold upcomingPhase at hrun
  cases henv : env.upcoming tok with
  | error e => rw [henv] at hrun; cases hrun
  | ok r =>
    rw [henv] at hrun
    have hlog := flags_logSync env s "upcoming"
      { httpStatus := if r.notModified then 304 else 200, lastModified := r.lastModified,
        matchesFound := r.matchList.length } h
    cases hnm : r.notModified with
    | true =>
      simp only [hnm, if_true, Except.ok.injEq, Prod.mk.injEq] at hrun
      simp only [hnm, if_true] at hlog
      rw [← hrun.1]
      exact hlog
    | false =>
      simp only [hnm, Bool.false_eq_true, if_false, Except.ok.injEq, Prod.mk.injEq] at hrun
      simp only [hnm, Bool.false_eq_true, if_false] at hlog
      rw [← hrun.1]
      exact flags_upsertAll env _ _ hlog

theorem flags_recentPhase (env : Env) (s : SyncState) (tok : Option String)
    (s1 : SyncState) (n q : Nat) (hrun : recentPhase env s tok = .ok (s1, n, q))
    (h : flagsInvariant s.db) : flagsInvariant s1.db := by
  unfold recentPhase at hrun
  cases henv : env.recent tok with
  | error e => rw [henv] at hrun; cases hrun
  | ok r =>
    rw [henv] at hrun
    have hlog := flags_logSync env s "recent"
      { httpStatus := if r.notModified then 304 else 200, lastModified := r.lastModified,
        matchesFound := r.matchList.length } h
    cases hnm : r.notModified with
    | true =>
      simp only [hnm, if_true, Except.ok.injEq, Prod.mk.injEq] at hrun
      simp only [hnm, if_true] at hlog
      rw [← hrun.1]
      exact hlog
    | false =>
      simp only [hnm, Bool.false_eq_true, if_false] at hrun
      simp only [hnm, Bool.false_eq_true, if_false] at hlog
      split at hrun
      · cases hrun
      · next s3 q3 heq =>
        simp only [Except.ok.injEq, Prod.mk.injEq] at hrun
        rw [← hrun.1]
        exact flags_backfillLoop env _ _ _ _ _ heq (flags_upsertAll env _ _ hlog)

theorem flags_syncMatches (env : Env) (s : SyncState) (s1 : SyncState)
    (res : SyncResults) (hrun : syncMatches env s = .ok (s1, res))
    (h : flagsInvariant s.db) : flagsInvariant s1.db := by
  simp only [syncMatches] at hrun
  cases hup : upcomingPhase env s (condTokens s.db.sync_log).1 with
  | ok p =>
    obtain ⟨sa, up⟩ := p
    have ha := flags_upcomingPhase env s _ sa up hup h
    simp only [hup] at hrun
    cases hrp : recentPhase env sa (condTokens s.db.sync_log).2 with
    | ok p2 =>
      obtain ⟨sb, rcq⟩ := p2
      obtain ⟨rc, q⟩ := rcq
      have hb := flags_recentPhase env sa _ sb rc q hrp ha
      simp only [hrp, Except.ok.injEq, Prod.mk.injEq] at hrun
      rw [← hrun.1]
      exact hb
    | error e =>
      simp only [hrp, Except.ok.injEq, Prod.mk.injEq] at hrun
      rw [← hrun.1]
      exact flags_logSync env sa "recent" _ ha
  | error e =>
    have ha := flags_logSync env s "upcoming" { httpStatus := 0, error := some e } h
    simp only [hup] at hrun
    cases hrp : recentPhase env
        (logSync env s "upcoming" { httpStatus := 0, error := some e })
        (condTokens s.db.sync_log).2 with
    | ok p2 =>
      obtain ⟨sb, rcq⟩ := p2
      obtain ⟨rc, q⟩ := rcq
      have hb := flags_recentPhase env _ _ sb rc q hrp ha
      simp only [hrp, Except.ok.injEq, Prod.mk.injEq] at hrun
      rw [← hrun.1]
      exact hb
    | error e2 =>
      simp only [hrp, Except.ok.injEq, Prod.mk.injEq] at hrun
      rw [← hrun.1]
      exact flags_logSync env _ "recent" _ ha

theorem flags_runCall (c : OrchestratorCall) (s : SyncState)
    (h : flagsInvariant s.db) : flagsInvariant (runCall c s).db := by
  cases c with
  | fullSync env =>
    simp only [runCall]
    cases hrun : syncMatches env s with
    | ok p =>
      obtain ⟨s1, res⟩ := p
      exact flags_syncMatches env s s1 res hrun h
    | error e => exact h
  | replaySync env matchId =>
    simp only [runCall]
    cases hrun : syncMatchReplay env matchId s with
    | ok p =>
      obtain ⟨s1, o⟩ := p
      exact flags_syncMatchReplay env matchId s s1 o hrun h
    | error e => exact h

/-- C10: every team upsert writes is_deadly_sins as the pure predicate
(team id equals the tracked-team id) and every match upsert writes
involves_deadly_sins as the pure predicate on its two team ids; hence after
any sequence of orchestrator calls from a store satisfying the invariant, a
team row is flagged iff it is the tracked team, and a match row is flagged
iff one of its teams is the tracked team. -/
theorem c10_tracked_team_flags (cs : List OrchestratorCall) (s : SyncState)
    (h : flagsInvariant s.db) :
    flagsInvariant (runCalls cs s).db ∧
    (∀ t ∈ (runCalls cs s).db.teams,
      (t.is_deadly_sins = true ↔ t.id = DEADLY_SINS_TEAM_ID)) ∧
    (∀ m ∈ (runCalls cs s).db.matchesTbl,
      (m.involves_deadly_sins = true ↔
        (m.home_team_id = DEADLY_SINS_TEAM_ID ∨ m.away_team_id = DEADLY_SINS_TEAM_ID))) := by
  have hinv : flagsInvariant (runCalls cs s).db := by
    unfold runCalls
    induction cs generalizing s with
    | nil => exact h
    | cons c rest ih => exact ih (runCall c s) (flags_runCall c s h)
  refine ⟨hinv, fun t ht => ?_, fun m hm => ?_⟩
  · rw [hinv.1 t ht]
    simp
  · rw [hinv.2 m hm]
    simp

/-- Witness for C10: one full sync against a one-match environment starting
from the empty store. -/
def c10Env : Env :=
  { upcoming := fun _ =>
      .ok { matchList := [exMatchDS, exMatchOther], lastModified := some "LU",
            notModified := false }
    recent := fun _ =>
      .ok { matchList := [], lastModified := some "LR", notModified := false }
    replay := fun _ _ => .error "offline"
    wFail := fun _ => false }

def initialState : SyncState := { db := {}, wtick := 0, trace := [] }

theorem c10_tracked_team_flags_witness :
    flagsInvariant (runCalls [.fullSync c10Env] initialState).db ∧
    (∀ t ∈ (runCalls [.fullSync c10Env] initialState).db.teams,
      (t.is_deadly_sins = true ↔ t.id = DEADLY_SINS_TEAM_ID)) ∧
    (∀ m ∈ (runCalls [.fullSync c10Env] initialState).db.matchesTbl,
      (m.involves_deadly_sins = true ↔
        (m.home_team_id = DEADLY_SINS_TEAM_ID ∨ m.away_team_id = DEADLY_SINS_TEAM_ID))) :=
  c10_tracked_team_flags [.fullSync c10Env] initialState
    ⟨fun t ht => by simp [initialState] at ht, fun m hm => by simp [initialState] at hm⟩

-- ============================================================
-- C2: the conditional-token lookup of syncMatches
-- ============================================================

/-- The last_modified of the most recent successful audit entry for one
endpoint, over the WHOLE log: what the claim says each poll should send. -/
def latestSuccessToken (log : List SyncLogRow) (ep : String) : Option (Option String) :=
  (((log.filter fun r => r.endpoint == ep && r.http_status == 200).reverse).head?).map
    fun r => r.last_modified

def c2Log : List SyncLogRow :=
  [{ endpoint := "recent", last_modified := some "B", http_status := 200,
     matches_found := 0, matches_new := 0, error := none },
   { endpoint := "upcoming", last_modified := some "A", http_status := 200,
     matches_found := 0, matches_new := 0, error := none },
   { endpoint := "upcoming", last_modified := some "C", http_status := 200,
     matches_found := 0, matches_new := 0, error := none }]

/-- C2 counterexample: with two successful upcoming entries more recent
than the last successful recent entry, the combined limit-2 query drops the
recent row, so the recent poll sends no token even though its most recent
successful entry stored token "B" — refuting the per-endpoint independence
the claim asserts. -/
theorem c2_token_lookup_counterexample :
    latestSuccessToken c2Log "recent" = some (some "B") ∧
    (condTokens c2Log).2 = none ∧
    (condTokens c2Log).2 ≠ some "B" ∧
    (condTokens c2Log).1 = some "C" := by
  refine ⟨by decide, by decide, by decide, by decide⟩

theorem mem_top2Succ_isCondRow (log : List SyncLogRow) (r : SyncLogRow)
    (h : r ∈ top2Succ log) : isCondRow r = true := by
  unfold top2Succ at h
  have h2 := List.mem_reverse.mp (List.mem_of_mem_take h)
  exact (List.mem_filter.mp h2).2

/-- C2 (amended): the lookup reads only the two most recent successful
entries across both endpoints combined (limit 2 over the union); whenever
those two rows belong to different endpoints, each poll's token is the
last_modified of its endpoint's row, but two successes in a row for one
endpoint evict the other endpoint's stored token. -/
theorem c2_token_lookup_amended (log : List SyncLogRow) (r1 r2 : SyncLogRow)
    (h2 : top2Succ log = [r1, r2]) (hne : r1.endpoint ≠ r2.endpoint) :
    (condTokens log).1 = (if r1.endpoint == "upcoming" then r1 else r2).last_modified ∧
    (condTokens log).2 = (if r1.endpoint == "recent" then r1 else r2).last_modified := by
  have hm1 : r1 ∈ top2Succ log := by rw [h2]; simp
  have hm2 : r2 ∈ top2Succ log := by rw [h2]; simp
  have hc1 := mem_top2Succ_isCondRow log r1 hm1
  have hc2 := mem_top2Succ_isCondRow log r2 hm2
  simp only [isCondRow, Bool.and_eq_true, Bool.or_eq_true, beq_iff_eq] at hc1 hc2
  have he1 := hc1.1
  have he2 := hc2.1
  simp only [condTokens, h2]
  rcases he1 with h1 | h1 <;> rcases he2 with h2e | h2e
  · exact absurd (h1.trans h2e.symm) hne
  · simp [buildLastModifiedMap, mapFind, mapSet, mapGetTok, jsFalsyTok, h1, h2e]
  · simp [buildLastModifiedMap, mapFind, mapSet, mapGetTok, jsFalsyTok, h1, h2e]
  · exact absurd (h1.trans h2e.symm) hne

/-- Witness for the amended C2: a log whose two most recent successful
entries are one recent entry then one upcoming entry. -/
def c2GoodLog : List SyncLogRow :=
  [{ endpoint := "upcoming", last_modified := some "U", http_status := 200,
     matches_found := 0, matches_new := 0, error := none },
   { endpoint := "recent", last_modified := some "R", http_status := 200,
     matches_found := 0, matches_new := 0, error := none }]

theorem c2_token_lookup_amended_witness :
    (condTokens c2GoodLog).1
        = (if ({ endpoint := "recent", last_modified := some "R", http_status := 200,
                 matches_found := 0, matches_new := 0, error := none } : SyncLogRow).endpoint
              == "upcoming"
           then ({ endpoint := "recent", last_modified := some "R", http_status := 200,
                   matches_found := 0, matches_new := 0, error := none } : SyncLogRow)
           else { endpoint := "upcoming", last_modified := some "U", http_status := 200,
                  matches_found := 0, matches_new := 0, error := none }).last_modified ∧
    (condTokens c2GoodLog).2
        = (if ({ endpoint := "recent", last_modified := some "R", http_status := 200,
                 matches_found := 0, matches_new := 0, error := none } : SyncLogRow).endpoint
              == "recent"
           then ({ endpoint := "recent", last_modified := some "R", http_status := 200,
                   matches_found := 0, matches_new := 0, error := none } : SyncLogRow)
           else { endpoint := "upcoming", last_modified := some "U", http_status := 200,
                  matches_found := 0, matches_new := 0, error := none }).last_modified :=
  c2_token_lookup_amended c2GoodLog _ _ (by decide) (by decide)

-- ============================================================
-- C3: syncMatchReplay is a no-op on the second call
-- ============================================================

def countTag (t : OpTag) (l : List OpTag) : Nat :=
  (l.filter fun x => decide (x = t)).length

theorem countTag_append (t : OpTag) (a b : List OpTag) :
    countTag t (a ++ b) = countTag t a + countTag t b := by
  simp [countTag, List.filter_append]

theorem countTag_single_ne (t u : OpTag) (h : ¬ u = t) : countTag t [u] = 0 := by
  simp [countTag, h]

theorem dbWrite_trace (env : Env) (s : SyncState) (tag : OpTag) (f : DB → DB) :
    (dbWrite env s tag f).trace = s.trace ++ [tag] := rfl

theorem dbWrite_hw (env : Env) (s : SyncState) (tag : OpTag) (f : DB → DB)
    (hw : env.wFail = fun _ => false) :
    dbWrite env s tag f
      = { db := f s.db, wtick := s.wtick + 1, trace := s.trace ++ [tag] } := by
  simp [dbWrite, hw]

theorem dbWrite_db_sync_log (env : Env) (s : SyncState) (tag : OpTag) (f : DB → DB)
    (hf : ∀ db : DB, (f db).sync_log = db.sync_log) :
    (dbWrite env s tag f).db.sync_log = s.db.sync_log := by
  unfold dbWrite
  dsimp only
  split
  · rfl
  · exact hf s.db

theorem dbWrite_db_matchesTbl (env : Env) (s : SyncState) (tag : OpTag) (f : DB → DB)
    (hf : ∀ db : DB, (f db).matchesTbl = db.matchesTbl) :
    (dbWrite env s tag f).db.matchesTbl = s.db.matchesTbl := by
  unfold dbWrite
  dsimp only
  split
  · rfl
  · exact hf s.db

theorem writeEventBatches_sync_log (env : Env) (batches : List (List EventRow)) :
    ∀ s, (writeEventBatches env s batches).db.sync_log = s.db.sync_log := by
  induction batches with
  | nil => intro s; rfl
  | cons b rest ih =>
    intro s
    have hstep := dbWrite_db_sync_log env s .writeEvents
      (fun db => { db with match_events := insertIgnoreBatch eventKey b db.match_events })
      (fun _ => rfl)
    simpa [writeEventBatches, List.foldl_cons, hstep] using
      ih (dbWrite env s .writeEvents
        (fun db => { db with match_events := insertIgnoreBatch eventKey b db.match_events }))

theorem writeEnergyBatches_sync_log (env : Env) (batches : List (List EnergySnapRow)) :
    ∀ s, (writeEnergyBatches env s batches).db.sync_log = s.db.sync_log := by
  induction batches with
  | nil => intro s; rfl
  | cons b rest ih =>
    intro s
    have hstep := dbWrite_db_sync_log env s .writeEnergy
      (fun db => { db with energy_snapshots := insertIgnoreBatch snapKey b db.energy_snapshots })
      (fun _ => rfl)
    simpa [writeEnergyBatches, List.foldl_cons, hstep] using
      ih (dbWrite env s .writeEnergy
        (fun db => { db with energy_snapshots := insertIgnoreBatch snapKey b db.energy_snapshots }))

theorem writeEventBatches_matchesTbl (env : Env) (batches : List (List EventRow)) :
    ∀ s, (writeEventBatches env s batches).db.matchesTbl = s.db.matchesTbl := by
  induction batches with
  | nil => intro s; rfl
  | cons b rest ih =>
    intro s
    have hstep := dbWrite_db_matchesTbl env s .writeEvents
      (fun db => { db with match_events := insertIgnoreBatch eventKey b db.match_events })
      (fun _ => rfl)
    simpa [writeEventBatches, List.foldl_cons, hstep] using
      ih (dbWrite env s .writeEvents
        (fun db => { db with match_events := insertIgnoreBatch eventKey b db.match_events }))

theorem writeEnergyBatches_matchesTbl (env : Env) (batches : List (List EnergySnapRow)) :
    ∀ s, (writeEnergyBatches env s batches).db.matchesTbl = s.db.matchesTbl := by
  induction batches with
  | nil => intro s; rfl
  | cons b rest ih =>
    intro s
    have hstep := dbWrite_db_matchesTbl env s .writeEnergy
      (fun db => { db with energy_snapshots := insertIgnoreBatch snapKey b db.energy_snapshots })
      (fun _ => rfl)
    simpa [writeEnergyBatches, List.foldl_cons, hstep] using
      ih (dbWrite env s .writeEnergy
        (fun db => { db with energy_snapshots := insertIgnoreBatch snapKey b db.energy_snapshots }))

theorem writeEventBatches_count (env : Env) (t : OpTag) (h : ¬ OpTag.writeEvents = t)
    (batches : List (List EventRow)) :
    ∀ s, countTag t (writeEventBatches env s batches).trace = countTag t s.trace := by
  induction batches with
  | nil => intro s; rfl
  | cons b rest ih =>
    intro s
    rw [writeEventBatches, List.foldl_cons]
    rw [show List.foldl _ _ rest = writeEventBatches env
      (dbWrite env s .writeEvents
        (fun db => { db with match_events := insertIgnoreBatch eventKey b db.match_events }))
      rest from rfl]
    rw [ih, dbWrite_trace, countTag_append, countTag_single_ne t _ h]
    simp

theorem writeEnergyBatches_count (env : Env) (t : OpTag) (h : ¬ OpTag.writeEnergy = t)
    (batches : List (List EnergySnapRow)) :
    ∀ s, countTag t (writeEnergyBatches env s batches).trace = countTag t s.trace := by
  induction batches with
  | nil => intro s; rfl
  | cons b rest ih =>
    intro s
    rw [writeEnergyBatches, List.foldl_cons]
    rw [show List.foldl _ _ rest = writeEnergyBatches env
      (dbWrite env s .writeEnergy
        (fun db => { db with energy_snapshots := insertIgnoreBatch snapKey b db.energy_snapshots }))
      rest from rfl]
    rw [ih, dbWrite_trace, countTag_append, countTag_single_ne t _ h]
    simp

theorem updateWrite_db (env : Env) (s : SyncState) (matchId : String)
    (info : ReplayMatchInfo) :
    (dbWrite env s .updateMatches (fun db =>
        { db with matchesTbl := db.matchesTbl.map (replayMatchUpdate matchId info) })).db.sync_log
      = s.db.sync_log :=
  dbWrite_db_sync_log env s .updateMatches
    (fun db => { db with matchesTbl := db.matchesTbl.map (replayMatchUpdate matchId info) })
    (fun _ => rfl)

theorem statsWrite_db (env : Env) (s : SyncState) (matchId : String)
    (replay : ApiReplayData) :
    (dbWrite env s .writeStats (fun db =>
        { db with player_match_stats := upsertBatch statKey (statRows matchId replay) db.player_match_stats })).db.sync_log
      = s.db.sync_log :=
  dbWrite_db_sync_log env s .writeStats
    (fun db => { db with player_match_stats := upsertBatch statKey (statRows matchId replay) db.player_match_stats })
    (fun _ => rfl)

theorem statsWrite_matchesTbl (env : Env) (s : SyncState) (matchId : String)
    (replay : ApiReplayData) :
    (dbWrite env s .writeStats (fun db =>
        { db with player_match_stats := upsertBatch statKey (statRows matchId replay) db.player_match_stats })).db.matchesTbl
      = s.db.matchesTbl :=
  dbWrite_db_matchesTbl env s .writeStats
    (fun db => { db with player_match_stats := upsertBatch statKey (statRows matchId replay) db.player_match_stats })
    (fun _ => rfl)

theorem persist_sync_log (env : Env) (s : SyncState) (matchId : String)
    (replay : ApiReplayData) :
    (persistReplayData env s matchId replay).db.sync_log = s.db.sync_log := by
  unfold persistReplayData
  dsimp only
  split
  · rw [writeEnergyBatches_sync_log, writeEventBatches_sync_log,
        statsWrite_db, updateWrite_db]
  · rw [writeEventBatches_sync_log, statsWrite_db, updateWrite_db]

theorem persist_count_update (env : Env) (s : SyncState) (matchId : String)
    (replay : ApiReplayData) :
    countTag .updateMatches (persistReplayData env s matchId replay).trace
      = countTag .updateMatches s.trace + 1 := by
  unfold persistReplayData
  dsimp only
  split
  · rw [writeEnergyBatches_count env .updateMatches (by simp),
        writeEventBatches_count env .updateMatches (by simp),
        dbWrite_trace, dbWrite_trace, countTag_append, countTag_append,
        countTag_single_ne .updateMatches .writeStats (by simp)]
    simp [countTag]
  · rw [writeEventBatches_count env .updateMatches (by simp),
        dbWrite_trace, dbWrite_trace, countTag_append, countTag_append,
        countTag_single_ne .updateMatches .writeStats (by simp)]
    simp [countTag]

theorem logSync_db_hw (env : Env) (s : SyncState) (ep : String) (p : LogParams)
    (hw : env.wFail = fun _ => false) :
    (logSync env s ep p).db = { s.db with sync_log := s.db.sync_log ++
      [{ endpoint := ep, last_modified := p.lastModified, http_status := p.httpStatus,
         matches_found := p.matchesFound, matches_new := p.matchesNew,
         error := p.error }] } := by
  unfold logSync
  rw [dbWrite_hw env s _ _ hw]

theorem logSync_trace (env : Env) (s : SyncState) (ep : String) (p : LogParams) :
    (logSync env s ep p).trace = s.trace ++ [.insertSyncLog ep] := rfl

/-- C3: with an unchanged upstream, two successive syncMatchReplay calls
perform exactly one detail persistence: the first call persists and logs a
200 entry carrying the upstream token; the second call sends that token,
receives unchanged, appends an audit entry with zero new records, performs
no further persistence writes, and returns with notModified true. -/
theorem c3_replay_idempotent (env : Env) (s : SyncState) (matchId : String)
    (rd : ApiReplayData) (T : String) (lm2 : Option String)
    (hw : env.wFail = fun _ => false)
    (h1 : env.replay matchId (replayToken s.db matchId)
        = .ok { data := some rd, notModified := false, lastModified := some T })
    (h2 : env.replay matchId (some T)
        = .ok { data := none, notModified := true, lastModified := lm2 }) :
    ∃ s1 s2 : SyncState,
      syncMatchReplay env matchId s = .ok (s1, { success := true, notModified := false }) ∧
      syncMatchReplay env matchId s1 = .ok (s2, { success := true, notModified := true }) ∧
      s1.db.sync_log = s.db.sync_log ++
        [{ endpoint := replayEndpointFor matchId, last_modified := some T,
           http_status := 200, matches_found := 1, matches_new := 1, error := none }] ∧
      s2.db.sync_log = s1.db.sync_log ++
        [{ endpoint := replayEndpointFor matchId, last_modified := lm2,
           http_status := 304, matches_found := 1, matches_new := 0, error := none }] ∧
      countTag .updateMatches s1.trace = countTag .updateMatches s.trace + 1 ∧
      countTag .updateMatches s2.trace = countTag .updateMatches s1.trace ∧
      s2.trace = s1.trace ++ [.insertSyncLog (replayEndpointFor matchId)] ∧
      s2.db.matchesTbl = s1.db.matchesTbl ∧
      s2.db.player_match_stats = s1.db.player_match_stats ∧
      s2.db.match_events = s1.db.match_events ∧
      s2.db.energy_snapshots = s1.db.energy_snapshots := by
  have hcall1 : syncMatchReplay env matchId s = .ok
      (persistReplayData env (logSync env s (replayEndpointFor matchId)
          { httpStatus := 200, lastModified := some T, matchesFound := 1, matchesNew := 1 })
        matchId rd, { success := true, notModified := false }) := by
    simp only [syncMatchReplay, syncMatchReplayBody, h1, Bool.false_eq_true, if_false]
  set sA := logSync env s (replayEndpointFor matchId)
    { httpStatus := 200, lastModified := some T, matchesFound := 1, matchesNew := 1 } with hsA
  set s1 := persistReplayData env sA matchId rd with hs1
  have hlog1 : s1.db.sync_log = s.db.sync_log ++
      [{ endpoint := replayEndpointFor matchId, last_modified := some T, http_status := 200,
         matches_found := 1, matches_new := 1, error := none }] := by
    rw [hs1, persist_sync_log, hsA, logSync_db_hw env s _ _ hw]
  have htok : replayToken s1.db matchId = some T := by
    unfold replayToken
    rw [hlog1]
    simp [List.filter_append]
  have hcall2 : syncMatchReplay env matchId s1 = .ok
      (logSync env s1 (replayEndpointFor matchId)
        { httpStatus := 304, lastModified := lm2, matchesFound := 1, matchesNew := 0 },
       { success := true, notModified := true }) := by
    simp only [syncMatchReplay, syncMatchReplayBody, htok, h2, if_true]
  set s2 := logSync env s1 (replayEndpointFor matchId)
    { httpStatus := 304, lastModified := lm2, matchesFound := 1, matchesNew := 0 } with hs2
  refine ⟨s1, s2, hcall1, hcall2, hlog1, ?_, ?_, ?_, ?_, ?_, ?_, ?_, ?_⟩
  · rw [hs2, logSync_db_hw env s1 _ _ hw]
  · rw [hs1, persist_count_update, hsA, logSync_trace, countTag_append,
        countTag_single_ne _ _ (by simp)]
  · rw [hs2, logSync_trace, countTag_append, countTag_single_ne _ _ (by simp)]
    simp
  · exact logSync_trace env s1 _ _
  · rw [hs2, logSync_db_hw env s1 _ _ hw]
  · rw [hs2, logSync_db_hw env s1 _ _ hw]
  · rw [hs2, logSync_db_hw env s1 _ _ hw]
  · rw [hs2, logSync_db_hw env s1 _ _ hw]

def c3Rd : ApiReplayData :=
  { success := true
    data :=
      { matchInfo :=
          { id := "m-ds", homeTeam := dsTeam, awayTeam := oppTeamA, homeScore := 2,
            awayScore := 1, scheduledTime := "t1", simVersion := "v1" }
        playerStats := { home := [], away := [] }
        events := [] }
    timestamp := "ts" }

def c3Env : Env :=
  { upcoming := fun _ => .error "unused"
    recent := fun _ => .error "unused"
    replay := fun _ tok =>
      if tok == some "T1" then
        .ok { data := none, notModified := true, lastModified := some "T1" }
      else
        .ok { data := some c3Rd, notModified := false, lastModified := some "T1" }
    wFail := fun _ => false }

/-- Witness for C3 on a concrete environment whose replay endpoint answers
unchanged exactly when it is sent the token it handed out. -/
theorem c3_replay_idempotent_witness :
    ∃ s1 s2 : SyncState,
      syncMatchReplay c3Env "m-ds" initialState
          = .ok (s1, { success := true, notModified := false }) ∧
      syncMatchReplay c3Env "m-ds" s1 = .ok (s2, { success := true, notModified := true }) ∧
      s1.db.sync_log = initialState.db.sync_log ++
        [{ endpoint := replayEndpointFor "m-ds", last_modified := some "T1",
           http_status := 200, matches_found := 1, matches_new := 1, error := none }] ∧
      s2.db.sync_log = s1.db.sync_log ++
        [{ endpoint := replayEndpointFor "m-ds", last_modified := some "T1",
           http_status := 304, matches_found := 1, matches_new := 0, error := none }] ∧
      countTag .updateMatches s1.trace = countTag .updateMatches initialState.trace + 1 ∧
      countTag .updateMatches s2.trace = countTag .updateMatches s1.trace ∧
      s2.trace = s1.trace ++ [.insertSyncLog (replayEndpointFor "m-ds")] ∧
      s2.db.matchesTbl = s1.db.matchesTbl ∧
      s2.db.player_match_stats = s1.db.player_match_stats ∧
      s2.db.match_events = s1.db.match_events ∧
      s2.db.energy_snapshots = s1.db.energy_snapshots :=
  c3_replay_idempotent c3Env initialState "m-ds" c3Rd "T1" (some "T1") rfl rfl rfl

-- ============================================================
-- C6: end-to-end behaviour of one changed syncMatches pass
-- ============================================================

/-- Is a row with this match id present? -/
def hasMatchId (tbl : List MatchRow) (i : String) : Bool :=
  tbl.any fun r => r.id == i

/-- The stored replay_fetched flag read by the backfill scan: false when
the row is absent. -/
def flagOf (tbl : List MatchRow) (i : String) : Bool :=
  ((tbl.find? fun r => r.id == i).map fun r => r.replay_fetched).getD false

/-- The completed tracked-team slice of a recent poll result. -/
def dsCompleted (ms : List ApiMatch) : List ApiMatch :=
  (filterDeadlySinsMatches ms).filter fun m => decide (m.status = MatchStatus.COMPLETED)

/-- The matches the backfill scan fetches: completed tracked matches whose
persisted replay_fetched flag is false. -/
def eligibleBackfills (tbl : List MatchRow) (ms : List ApiMatch) : List ApiMatch :=
  (dsCompleted ms).filter fun m => !(flagOf tbl m.id)

theorem find?_congrP {α : Type} (l : List α) (p q : α → Bool)
    (h : ∀ x ∈ l, p x = q x) : l.find? p = l.find? q := by
  induction l with
  | nil => rfl
  | cons x xs ih =>
    have hx := h x (by simp)
    rw [List.find?_cons, List.find?_cons, hx]
    cases q x
    · exact ih fun y hy => h y (by simp [hy])
    · rfl

theorem hasMatchId_any_map_update (tbl : List MatchRow) (mid : String)
    (row : MatchRow) (hrow : row.id = mid) (i : String) :
    hasMatchId (tbl.map fun x => if x.id == mid then row else x) i
      = hasMatchId tbl i := by
  unfold hasMatchId
  induction tbl with
  | nil => rfl
  | cons x xs ih =>
    simp only [List.map_cons, List.any_cons]
    rw [show (xs.map fun x => if x.id == mid then row else x).any (fun r => r.id == i)
          = xs.any (fun r => r.id == i) from ih]
    by_cases hx : (x.id == mid) = true
    · rw [if_pos hx]
      have : row.id = x.id := by rw [hrow, beq_iff_eq.mp hx]
      rw [this]
    · rw [if_neg hx]

theorem hasMatchId_upsertMatchRow (m : ApiMatch) (tbl : List MatchRow) (i : String) :
    hasMatchId (upsertMatchRow m tbl) i = (hasMatchId tbl i || (m.id == i)) := by
  unfold upsertMatchRow
  split
  · next old hfind =>
    rw [hasMatchId_any_map_update tbl m.id _ rfl i]
    by_cases hm : (m.id == i) = true
    · have hold := List.find?_some hfind
      have holdmem := List.mem_of_find?_eq_some hfind
      have : hasMatchId tbl i = true := by
        unfold hasMatchId
        refine List.any_eq_true.mpr ⟨old, holdmem, ?_⟩
        rw [beq_iff_eq.mp hold, beq_iff_eq.mp hm]
        simp
      rw [this, hm]
      rfl
    · simp only [Bool.not_eq_true] at hm
      rw [hm, Bool.or_false]
  · unfold hasMatchId
    simp [List.any_append, matchRowOf]

theorem find?_map_update_off (tbl : List MatchRow) (mid : String) (row : MatchRow)
    (hrow : row.id = mid) (j : String) (hj : (mid == j) = false) :
    (tbl.map fun x => if x.id == mid then row else x).find? (fun r => r.id == j)
      = tbl.find? fun r => r.id == j := by
  induction tbl with
  | nil => rfl
  | cons x xs ih =>
    simp only [List.map_cons, List.find?_cons]
    by_cases hx : (x.id == mid) = true
    · rw [if_pos hx]
      have hxj : (x.id == j) = false := by
        rw [beq_iff_eq.mp hx]
        exact hj
      have hrj : (row.id == j) = false := by
        rw [hrow]
        exact hj
      rw [hrj, hxj]
      exact ih
    · rw [if_neg hx]
      cases hc : (x.id == j)
      · exact ih
      · rfl

theorem find?_upsertMatchRow_off (m : ApiMatch) (tbl : List MatchRow) (j : String)
    (hj : (m.id == j) = false) :
    (upsertMatchRow m tbl).find? (fun r => r.id == j)
      = tbl.find? fun r => r.id == j := by
  unfold upsertMatchRow
  split
  · next old hfind => exact find?_map_update_off tbl m.id _ rfl j hj
  · rw [List.find?_append]
    have : ([matchRowOf m false none].find? fun r => r.id == j) = none := by
      simp [List.find?_cons, matchRowOf, hj]
    rw [this]
    cases tbl.find? fun r => r.id == j <;> rfl

theorem find?_map_update_at (tbl : List MatchRow) (mid : String) (row : MatchRow)
    (hrow : row.id = mid) :
    (tbl.map fun x => if x.id == mid then row else x).find? (fun r => r.id == mid)
      = (tbl.find? (fun r => r.id == mid)).map fun _ => row := by
  induction tbl with
  | nil => rfl
  | cons x xs ih =>
    simp only [List.map_cons, List.find?_cons]
    by_cases hx : (x.id == mid) = true
    · rw [if_pos hx, hx]
      have hr : (row.id == mid) = true := by rw [hrow]; simp
      rw [hr]
      rfl
    · rw [if_neg hx]
      have hxb : (x.id == mid) = false := by simpa using hx
      rw [hxb]
      exact ih

theorem flagOf_upsertMatchRow (m : ApiMatch) (tbl : List MatchRow) (i : String) :
    flagOf (upsertMatchRow m tbl) i = flagOf tbl i := by
  unfold upsertMatchRow
  split
  · next old hfind =>
    by_cases hmi : (m.id == i) = true
    · have hieq : i = m.id := (beq_iff_eq.mp hmi).symm
      subst hieq
      unfold flagOf
      rw [find?_map_update_at tbl m.id _ rfl, hfind]
      simp [matchRowOf]
    · have hj : (m.id == i) = false := by simpa using hmi
      unfold flagOf
      rw [find?_map_update_off tbl m.id _ rfl i hj]
  · next hfind =>
    by_cases hmi : (m.id == i) = true
    · have hieq : i = m.id := (beq_iff_eq.mp hmi).symm
      subst hieq
      unfold flagOf
      rw [List.find?_append]
      rw [hfind]
      simp [List.find?_cons, matchRowOf]
    · have hj : (m.id == i) = false := by simpa using hmi
      unfold flagOf
      rw [List.find?_append]
      have : ([matchRowOf m false none].find? fun r => r.id == i) = none := by
        simp [List.find?_cons, matchRowOf, hj]
      rw [this]
      cases tbl.find? fun r => r.id == i <;> rfl

theorem foldl_upsert_hasMatchId (ms : List ApiMatch) :
    ∀ (tbl : List MatchRow) (i : String),
      hasMatchId (ms.foldl (fun t m => upsertMatchRow m t) tbl) i
        = (hasMatchId tbl i || ms.any fun m => m.id == i) := by
  induction ms with
  | nil => intro tbl i; simp
  | cons m rest ih =>
    intro tbl i
    rw [List.foldl_cons, ih, hasMatchId_upsertMatchRow]
    simp [Bool.or_assoc]

theorem foldl_upsert_find?_off (ms : List ApiMatch) :
    ∀ (tbl : List MatchRow) (j : String), (ms.all fun m => !(m.id == j)) = true →
      (ms.foldl (fun t m => upsertMatchRow m t) tbl).find? (fun r => r.id == j)
        = tbl.find? fun r => r.id == j := by
  induction ms with
  | nil => intro tbl j _; rfl
  | cons m rest ih =>
    intro tbl j hall
    simp only [List.all_cons, Bool.and_eq_true] at hall
    have hhead : (m.id == j) = false := by
      have := hall.1
      simpa using this
    rw [List.foldl_cons, ih _ j hall.2, find?_upsertMatchRow_off m tbl j hhead]

theorem foldl_upsert_flagOf (ms : List ApiMatch) :
    ∀ (tbl : List MatchRow) (i : String),
      flagOf (ms.foldl (fun t m => upsertMatchRow m t) tbl) i = flagOf tbl i := by
  induction ms with
  | nil => intro tbl i; rfl
  | cons m rest ih =>
    intro tbl i
    rw [List.foldl_cons, ih, flagOf_upsertMatchRow]

theorem upsertMatch_db_hw (env : Env) (s : SyncState) (m : ApiMatch)
    (hw : env.wFail = fun _ => false) :
    ((upsertMatch env s m).1).db.sync_log = s.db.sync_log ∧
    ((upsertMatch env s m).1).db.matchesTbl = upsertMatchRow m s.db.matchesTbl := by
  cases hc : m.competition <;> cases hcf : m.conference <;> cases hl : m.league <;>
    simp [upsertMatch, upsertTeam, hc, hcf, hl, dbWrite, hw]

theorem upsertAll_db_hw (env : Env) (ms : List ApiMatch)
    (hw : env.wFail = fun _ => false) :
    ∀ s, (upsertAll env ms s).db.sync_log = s.db.sync_log ∧
      (upsertAll env ms s).db.matchesTbl
        = ms.foldl (fun t m => upsertMatchRow m t) s.db.matchesTbl := by
  induction ms with
  | nil => intro s; exact ⟨rfl, rfl⟩
  | cons m rest ih =>
    intro s
    have hstep := upsertMatch_db_hw env s m hw
    have htail := ih ((upsertMatch env s m).1)
    constructor
    · rw [show upsertAll env (m :: rest) s = upsertAll env rest ((upsertMatch env s m).1)
            from rfl, htail.1, hstep.1]
    · rw [show upsertAll env (m :: rest) s = upsertAll env rest ((upsertMatch env s m).1)
            from rfl, htail.2, hstep.2, List.foldl_cons]

theorem persist_matchesTbl_hw (env : Env) (s : SyncState) (matchId : String)
    (replay : ApiReplayData) (hw : env.wFail = fun _ => false) :
    (persistReplayData env s matchId replay).db.matchesTbl
      = s.db.matchesTbl.map (replayMatchUpdate matchId replay.data.matchInfo) := by
  unfold persistReplayData
  dsimp only
  split
  · rw [writeEnergyBatches_matchesTbl, writeEventBatches_matchesTbl,
        statsWrite_matchesTbl, dbWrite_hw env s _ _ hw]
  · rw [writeEventBatches_matchesTbl, statsWrite_matchesTbl, dbWrite_hw env s _ _ hw]

theorem replayMatchUpdate_id (mid : String) (info : ReplayMatchInfo) (x : MatchRow) :
    (replayMatchUpdate mid info x).id = x.id := by
  unfold replayMatchUpdate
  split <;> rfl

theorem hasMatchId_map_replayUpdate (mid : String) (info : ReplayMatchInfo)
    (tbl : List MatchRow) (i : String) :
    hasMatchId (tbl.map (replayMatchUpdate mid info)) i = hasMatchId tbl i := by
  unfold hasMatchId
  induction tbl with
  | nil => rfl
  | cons x xs ih =>
    simp only [List.map_cons, List.any_cons, replayMatchUpdate_id]
    rw [ih]

theorem find?_map_replayUpdate_off (mid : String) (info : ReplayMatchInfo)
    (tbl : List MatchRow) (j : String) (hj : (mid == j) = false) :
    (tbl.map (replayMatchUpdate mid info)).find? (fun r => r.id == j)
      = tbl.find? fun r => r.id == j := by
  induction tbl with
  | nil => rfl
  | cons x xs ih =>
    simp only [List.map_cons, List.find?_cons, replayMatchUpdate_id]
    cases hx : (x.id == j)
    · exact ih
    · have hfix : replayMatchUpdate mid info x = x := by
        unfold replayMatchUpdate
        rw [if_neg]
        intro hxm
        rw [beq_iff_eq.mp hx] at hxm
        have := beq_iff_eq.mp hxm
        rw [← this] at hj
        simp at hj
      rw [hfix]

theorem syncMatchReplay_effects (env : Env) (matchId : String) (s : SyncState)
    (hw : env.wFail = fun _ => false) :
    ∃ p : SyncState × ReplaySyncOut, syncMatchReplay env matchId s = .ok p ∧
      p.1.db.sync_log.map (fun r => r.endpoint)
        = s.db.sync_log.map (fun r => r.endpoint) ++ [replayEndpointFor matchId] ∧
      (∀ i, hasMatchId p.1.db.matchesTbl i = hasMatchId s.db.matchesTbl i) ∧
      (∀ j, (matchId == j) = false →
        p.1.db.matchesTbl.find? (fun r => r.id == j)
          = s.db.matchesTbl.find? (fun r => r.id == j)) := by
  have hlogdb : ∀ (p : LogParams), (logSync env s (replayEndpointFor matchId) p).db
      = { s.db with sync_log := s.db.sync_log ++
          [{ endpoint := replayEndpointFor matchId, last_modified := p.lastModified,
             http_status := p.httpStatus, matches_found := p.matchesFound,
             matches_new := p.matchesNew, error := p.error }] } :=
    fun p => logSync_db_hw env s _ p hw
  cases henv : env.replay matchId (replayToken s.db matchId) with
  | error e =>
    have hcall : syncMatchReplay env matchId s = .ok
        (logSync env s (replayEndpointFor matchId) { httpStatus := 0, error := some e },
         { success := false, notModified := false }) := by
      simp only [syncMatchReplay, syncMatchReplayBody, henv]
    refine ⟨_, hcall, ?_, ?_, ?_⟩
    · rw [hlogdb]
      simp
    · intro i
      rw [hlogdb]
    · intro j _
      rw [hlogdb]
  | ok r =>
    rcases r with ⟨data, nm, lm⟩
    cases nm with
    | true =>
      have hcall : syncMatchReplay env matchId s = .ok
          (logSync env s (replayEndpointFor matchId)
            { httpStatus := 304, lastModified := lm, matchesFound := 1, matchesNew := 0 },
           { success := true, notModified := true }) := by
        simp only [syncMatchReplay, syncMatchReplayBody, henv, if_true]
      refine ⟨_, hcall, ?_, ?_, ?_⟩
      · rw [hlogdb]
        simp
      · intro i
        rw [hlogdb]
      · intro j _
        rw [hlogdb]
    | false =>
      cases data with
      | none =>
        have hcall : syncMatchReplay env matchId s = .ok
            (logSync env s (replayEndpointFor matchId)
              { httpStatus := 200, lastModified := lm, matchesFound := 1, matchesNew := 1 },
             { success := true, notModified := false }) := by
          simp only [syncMatchReplay, syncMatchReplayBody, henv, Bool.false_eq_true, if_false]
        refine ⟨_, hcall, ?_, ?_, ?_⟩
        · rw [hlogdb]
          simp
        · intro i
          rw [hlogdb]
        · intro j _
          rw [hlogdb]
      | some rd =>
        have hcall : syncMatchReplay env matchId s = .ok
            (persistReplayData env
              (logSync env s (replayEndpointFor matchId)
                { httpStatus := 200, lastModified := lm, matchesFound := 1, matchesNew := 1 })
              matchId rd,
             { success := true, notModified := false }) := by
          simp only [syncMatchReplay, syncMatchReplayBody, henv, Bool.false_eq_true, if_false]
        refine ⟨_, hcall, ?_, ?_, ?_⟩
        · rw [persist_sync_log, hlogdb]
          simp
        · intro i
          rw [persist_matchesTbl_hw env _ matchId rd hw, hasMatchId_map_replayUpdate,
              hlogdb]
        · intro j hj
          rw [persist_matchesTbl_hw env _ matchId rd hw,
              find?_map_replayUpdate_off matchId _ _ j hj, hlogdb]

theorem backfillLoop_cons (env : Env) (m : ApiMatch) (rest : List ApiMatch)
    (s : SyncState) (q : Nat) :
    backfillLoop env (m :: rest) s q
      = if !(flagOf s.db.matchesTbl m.id) then
          (match syncMatchReplay env m.id s with
           | .ok (s1, _) => backfillLoop env rest s1 (q + 1)
           | .error e => .error e)
        else backfillLoop env rest s q := rfl

theorem backfillLoop_spec (env : Env) (hw : env.wFail = fun _ => false) :
    ∀ (ms : List ApiMatch) (s : SyncState) (q : Nat),
      (ms.map fun m => m.id).Nodup →
      ∃ s1, backfillLoop env ms s q
          = .ok (s1, q + (ms.filter fun m => !(flagOf s.db.matchesTbl m.id)).length) ∧
        s1.db.sync_log.map (fun r => r.endpoint)
          = s.db.sync_log.map (fun r => r.endpoint)
            ++ (ms.filter fun m => !(flagOf s.db.matchesTbl m.id)).map
                 (fun m => replayEndpointFor m.id) ∧
        (∀ i, hasMatchId s1.db.matchesTbl i = hasMatchId s.db.matchesTbl i) ∧
        (∀ j, (ms.all fun m => !(m.id == j)) = true →
          s1.db.matchesTbl.find? (fun r => r.id == j)
            = s.db.matchesTbl.find? (fun r => r.id == j)) := by
  intro ms
  induction ms with
  | nil =>
    intro s q _
    exact ⟨s, rfl, by simp, fun i => rfl, fun j _ => rfl⟩
  | cons m rest ih =>
    intro s q hnd
    simp only [List.map_cons, List.nodup_cons] at hnd
    have hnd2 := hnd.2
    have hnotmem := hnd.1
    cases hflag : flagOf s.db.matchesTbl m.id with
    | true =>
      have hloop : backfillLoop env (m :: rest) s q = backfillLoop env rest s q := by
        rw [backfillLoop_cons, hflag]
        rfl
      obtain ⟨s1, heq, hlog, hids, hfind⟩ := ih s q hnd2
      refine ⟨s1, ?_, ?_, hids, ?_⟩
      · rw [hloop, heq]
        simp [List.filter_cons, hflag]
      · rw [hlog]
        simp [List.filter_cons, hflag]
      · intro j hall
        simp only [List.all_cons, Bool.and_eq_true] at hall
        exact hfind j hall.2
    | false =>
      obtain ⟨⟨sr, o⟩, hcall, hlogr, hidsr, hfindr⟩ :=
        syncMatchReplay_effects env m.id s hw
      have hloop : backfillLoop env (m :: rest) s q
          = backfillLoop env rest sr (q + 1) := by
        rw [backfillLoop_cons, hflag, hcall]
        rfl
      have hflagcongr : ∀ x ∈ rest, (!(flagOf sr.db.matchesTbl x.id))
          = !(flagOf s.db.matchesTbl x.id) := by
        intro x hx
        have hne : (m.id == x.id) = false := by
          apply beq_eq_false_iff_ne.mpr
          intro hcontra
          exact hnotmem (hcontra ▸ List.mem_map_of_mem (fun m => m.id) hx)
        unfold flagOf
        rw [hfindr x.id hne]
      have hcongr : (rest.filter fun x => !(flagOf sr.db.matchesTbl x.id))
          = rest.filter fun x => !(flagOf s.db.matchesTbl x.id) :=
        List.filter_congr hflagcongr
      obtain ⟨s1, heq, hlog, hids, hfind⟩ := ih sr (q + 1) hnd2
      refine ⟨s1, ?_, ?_, ?_, ?_⟩
      · rw [hloop, heq, hcongr]
        have harith : q + 1 + (rest.filter fun x => !(flagOf s.db.matchesTbl x.id)).length
            = q + ((rest.filter fun x => !(flagOf s.db.matchesTbl x.id)).length + 1) := by
          omega
        rw [harith]
        simp [List.filter_cons, hflag]
      · rw [hlog, hcongr, hlogr]
        simp [List.filter_cons, hflag, List.append_assoc]
      · intro i
        exact (hids i).trans (hidsr i)
      · intro j hall
        simp only [List.all_cons, Bool.and_eq_true] at hall
        have hhead : (m.id == j) = false := by
          have := hall.1
          simpa using this
        exact (hfind j hall.2).trans (hfindr j hhead)

/-- C6: in one syncMatches call where both polls return changed data, only
the tracked team's matches from the upcoming result are upserted, all
matches from the recent result are upserted, and a detail fetch is invoked
synchronously — and counted in replaysQueued — for exactly the completed
tracked matches of the recent result whose persisted replay_fetched flag
is false. -/
theorem c6_end_to_end (env : Env) (s : SyncState) (upMs recMs : List ApiMatch)
    (lmU lmR : Option String)
    (hw : env.wFail = fun _ => false)
    (hU : env.upcoming (condTokens s.db.sync_log).1
        = .ok { matchList := upMs, lastModified := lmU, notModified := false })
    (hR : env.recent (condTokens s.db.sync_log).2
        = .ok { matchList := recMs, lastModified := lmR, notModified := false })
    (hnd : (recMs.map fun m => m.id).Nodup) :
    ∃ s3 : SyncState,
      syncMatches env s = .ok (s3,
        { upcoming := (filterDeadlySinsMatches upMs).length
          recent := recMs.length
          replaysQueued := (eligibleBackfills s.db.matchesTbl recMs).length
          errors := 0 }) ∧
      s3.db.sync_log.map (fun r => r.endpoint)
        = s.db.sync_log.map (fun r => r.endpoint) ++ ["upcoming", "recent"]
          ++ (eligibleBackfills s.db.matchesTbl recMs).map
               (fun m => replayEndpointFor m.id) ∧
      (∀ i, hasMatchId s3.db.matchesTbl i
          = (hasMatchId s.db.matchesTbl i
             || (filterDeadlySinsMatches upMs).any (fun m => m.id == i)
             || recMs.any fun m => m.id == i)) ∧
      (∀ i, (filterDeadlySinsMatches upMs).any (fun m => m.id == i) = false →
            recMs.any (fun m => m.id == i) = false →
            s3.db.matchesTbl.find? (fun r => r.id == i)
              = s.db.matchesTbl.find? fun r => r.id == i) := by
  have hphase1 : upcomingPhase env s (condTokens s.db.sync_log).1
      = .ok (upsertAll env (filterDeadlySinsMatches upMs)
               (logSync env s "upcoming"
                 { httpStatus := 200, lastModified := lmU, matchesFound := upMs.length }),
             (filterDeadlySinsMatches upMs).length) := by
    simp only [upcomingPhase, hU, Bool.false_eq_true, if_false]
  set sA := logSync env s "upcoming"
    { httpStatus := 200, lastModified := lmU, matchesFound := upMs.length } with hsA
  set sB := upsertAll env (filterDeadlySinsMatches upMs) sA with hsB
  set sC := logSync env sB "recent"
    { httpStatus := 200, lastModified := lmR, matchesFound := recMs.length } with hsC
  set sD := upsertAll env recMs sC with hsD
  -- table bookkeeping through the two upsert phases
  have hA_db := logSync_db_hw env s "upcoming"
    { httpStatus := 200, lastModified := lmU, matchesFound := upMs.length } hw
  have hB_db := upsertAll_db_hw env (filterDeadlySinsMatches upMs) hw sA
  have hC_db := logSync_db_hw env sB "recent"
    { httpStatus := 200, lastModified := lmR, matchesFound := recMs.length } hw
  have hD_db := upsertAll_db_hw env recMs hw sC
  have hA_mt : sA.db.matchesTbl = s.db.matchesTbl := by rw [hsA, hA_db]
  have hC_mt : sC.db.matchesTbl = sB.db.matchesTbl := by rw [hsC, hC_db]
  have hD_flag : ∀ i, flagOf sD.db.matchesTbl i = flagOf s.db.matchesTbl i := by
    intro i
    rw [hD_db.2, foldl_upsert_flagOf, hC_mt, hB_db.2, foldl_upsert_flagOf, hA_mt]
  have hndds : (((filterDeadlySinsMatches recMs).filter fun m =>
      decide (m.status = MatchStatus.COMPLETED)).map fun m => m.id).Nodup := by
    have hsub1 : (filterDeadlySinsMatches recMs).Sublist recMs := by
      unfold filterDeadlySinsMatches
      exact List.filter_sublist recMs
    have hsub2 : ((filterDeadlySinsMatches recMs).filter fun m =>
        decide (m.status = MatchStatus.COMPLETED)).Sublist recMs :=
      (List.filter_sublist _).trans hsub1
    exact (hsub2.map fun m => m.id).nodup hnd
  obtain ⟨sE, hbf, hbflog, hbfids, hbffind⟩ := backfillLoop_spec env hw
    ((filterDeadlySinsMatches recMs).filter fun m => decide (m.status = MatchStatus.COMPLETED))
    sD 0 hndds
  have hEfilter : (((filterDeadlySinsMatches recMs).filter fun m =>
        decide (m.status = MatchStatus.COMPLETED)).filter fun m =>
        !(flagOf sD.db.matchesTbl m.id))
      = eligibleBackfills s.db.matchesTbl recMs := by
    unfold eligibleBackfills dsCompleted
    exact List.filter_congr fun x _ => by rw [hD_flag x.id]
  have hphase2 : recentPhase env sB (condTokens s.db.sync_log).2
      = .ok (sE, recMs.length, 0 + (eligibleBackfills s.db.matchesTbl recMs).length) := by
    simp only [recentPhase, hR, Bool.false_eq_true, if_false]
    rw [← hsC, ← hsD, hbf, hEfilter]
  refine ⟨sE, ?_, ?_, ?_, ?_⟩
  · simp only [syncMatches, hphase1, hphase2, Nat.zero_add]
  · rw [hbflog, hEfilter, hD_db.1]
    rw [show sC.db.sync_log = sB.db.sync_log ++
        [{ endpoint := "recent", last_modified := lmR, http_status := 200,
           matches_found := recMs.length, matches_new := 0, error := none }] from by
      rw [hC_db]]
    rw [hB_db.1]
    rw [show sA.db.sync_log = s.db.sync_log ++
        [{ endpoint := "upcoming", last_modified := lmU, http_status := 200,
           matches_found := upMs.length, matches_new := 0, error := none }] from by
      rw [hA_db]]
    simp [List.append_assoc]
  · intro i
    rw [hbfids i, hD_db.2, foldl_upsert_hasMatchId, hC_mt, hB_db.2,
        foldl_upsert_hasMatchId, hA_mt]
  · intro i hupany hrecany
    have hall_rec : (recMs.all fun m => !(m.id == i)) = true := by
      rw [List.all_eq_true]
      intro x hx
      have hfalse := List.any_eq_false.mp hrecany x hx
      simp [hfalse]
    have hall_up : ((filterDeadlySinsMatches upMs).all fun m => !(m.id == i)) = true := by
      rw [List.all_eq_true]
      intro x hx
      have hfalse := List.any_eq_false.mp hupany x hx
      simp [hfalse]
    have hall_ds : (((filterDeadlySinsMatches recMs).filter fun m =>
        decide (m.status = MatchStatus.COMPLETED)).all fun m => !(m.id == i)) = true := by
      rw [List.all_eq_true]
      intro x hx
      have hx2 : x ∈ filterDeadlySinsMatches recMs := List.mem_of_mem_filter hx
      have hx3 : x ∈ recMs := by
        unfold filterDeadlySinsMatches at hx2
        exact List.mem_of_mem_filter hx2
      have hfalse := List.any_eq_false.mp hrecany x hx3
      simp [hfalse]
    rw [hbffind i hall_ds, hD_db.2,
        foldl_upsert_find?_off recMs sC.db.matchesTbl i hall_rec, hC_mt, hB_db.2,
        foldl_upsert_find?_off (filterDeadlySinsMatches upMs) sA.db.matchesTbl i hall_up,
        hA_mt]

def c6Env : Env :=
  { upcoming := fun _ =>
      .ok { matchList := [exMatchDS, exMatchOther], lastModified := some "LU",
            notModified := false }
    recent := fun _ =>
      .ok { matchList := [exMatchDS, exMatchOther], lastModified := some "LR",
            notModified := false }
    replay := fun _ _ =>
      .ok { data := none, notModified := false, lastModified := some "LD" }
    wFail := fun _ => false }

/-- Witness for C6: an upcoming payload with one tracked and one untracked
match and a recent payload with the same two matches yields one upcoming
upsert, two recent upserts and exactly one queued backfill, for the
completed tracked match. -/
theorem c6_end_to_end_witness :
    ∃ s3 : SyncState,
      syncMatches c6Env initialState = .ok (s3,
        { upcoming := 1, recent := 2, replaysQueued := 1, errors := 0 }) ∧
      s3.db.sync_log.map (fun r => r.endpoint)
        = ["upcoming", "recent", replayEndpointFor "m-ds"] ∧
      hasMatchId s3.db.matchesTbl "m-ds" = true ∧
      hasMatchId s3.db.matchesTbl "m-other" = true := by
  obtain ⟨s3, h1, h2, h3, h4⟩ := c6_end_to_end c6Env initialState
    [exMatchDS, exMatchOther] [exMatchDS, exMatchOther] (some "LU") (some "LR")
    rfl rfl rfl (by decide)
  refine ⟨s3, ?_, ?_, ?_, ?_⟩
  · rw [h1]
    rfl
  · rw [h2]
    rfl
  · rw [h3 "m-ds"]
    decide
  · rw [h3 "m-other"]
    decide

-- ============================================================
-- C1: the two public operations never throw; audit rows for
-- caught errors are appended when the audit write itself succeeds
-- ============================================================

theorem syncMatchReplay_log_extends (env : Env) (matchId : String) (s : SyncState)
    (s1 : SyncState) (o : ReplaySyncOut) (hw : env.wFail = fun _ => false)
    (hrun : syncMatchReplay env matchId s = .ok (s1, o)) :
    ∃ rest, s1.db.sync_log = s.db.sync_log ++ rest := by
  unfold syncMatchReplay syncMatchReplayBody at hrun
  cases henv : env.replay matchId (replayToken s.db matchId) with
  | error e =>
    rw [henv] at hrun
    simp only [Except.ok.injEq, Prod.mk.injEq] at hrun
    refine ⟨[{ endpoint := replayEndpointFor matchId, last_modified := none, http_status := 0, matches_found := 0, matches_new := 0, error := some e }], ?_⟩
    rw [← hrun.1, logSync_db_hw env s _ _ hw]
  | ok r =>
    rw [henv] at hrun
    rcases r with ⟨data, nm, lm⟩
    cases nm with
    | true =>
      simp only [Except.ok.injEq, Prod.mk.injEq] at hrun
      refine ⟨[{ endpoint := replayEndpointFor matchId, last_modified := lm, http_status := 304, matches_found := 1, matches_new := 0, error := none }], ?_⟩
      rw [← hrun.1, logSync_db_hw env s _ _ hw]
      rfl
    | false =>
      cases data with
      | some rd =>
        simp only [Except.ok.injEq, Prod.mk.injEq] at hrun
        refine ⟨[{ endpoint := replayEndpointFor matchId, last_modified := lm, http_status := 200, matches_found := 1, matches_new := 1, error := none }], ?_⟩
        rw [← hrun.1, persist_sync_log, logSync_db_hw env s _ _ hw]
        rfl
      | none =>
        simp only [Except.ok.injEq, Prod.mk.injEq] at hrun
        refine ⟨[{ endpoint := replayEndpointFor matchId, last_modified := lm, http_status := 200, matches_found := 1, matches_new := 1, error := none }], ?_⟩
        rw [← hrun.1, logSync_db_hw env s _ _ hw]
        rfl

theorem backfillLoop_log_extends (env : Env) (hw : env.wFail = fun _ => false) :
    ∀ (ms : List ApiMatch) (s : SyncState) (q : Nat) (s1 : SyncState) (q1 : Nat),
      backfillLoop env ms s q = .ok (s1, q1) →
      ∃ rest, s1.db.sync_log = s.db.sync_log ++ rest := by
  intro ms
  induction ms with
  | nil =>
    intro s q s1 q1 hrun
    simp only [backfillLoop, Except.ok.injEq, Prod.mk.injEq] at hrun
    exact ⟨[], by rw [← hrun.1, List.append_nil]⟩
  | cons m rest ih =>
    intro s q s1 q1 hrun
    simp only [backfillLoop] at hrun
    split at hrun
    · obtain ⟨⟨sr, o⟩, hp⟩ := exists_ok_of_ne_error _
        (syncMatchReplay_ne_error env m.id s)
      rw [hp] at hrun
      obtain ⟨r1, h1⟩ := syncMatchReplay_log_extends env m.id s sr o hw hp
      obtain ⟨r2, h2⟩ := ih sr (q + 1) s1 q1 hrun
      exact ⟨r1 ++ r2, by rw [h2, h1, List.append_assoc]⟩
    · exact ih s q s1 q1 hrun

theorem recentPhase_log_extends (env : Env) (s : SyncState) (tok : Option String)
    (s2 : SyncState) (n q : Nat) (hw : env.wFail = fun _ => false)
    (hrun : recentPhase env s tok = .ok (s2, n, q)) :
    ∃ rest, s2.db.sync_log = s.db.sync_log ++ rest := by
  unfold recentPhase at hrun
  cases henv : env.recent tok with
  | error e => rw [henv] at hrun; cases hrun
  | ok r =>
    rw [henv] at hrun
    have hlog := logSync_db_hw env s "recent"
      { httpStatus := if r.notModified then 304 else 200, lastModified := r.lastModified,
        matchesFound := r.matchList.length } hw
    cases hnm : r.notModified with
    | true =>
      simp only [hnm, if_true, Except.ok.injEq, Prod.mk.injEq] at hrun
      refine ⟨[{ endpoint := "recent", last_modified := r.lastModified, http_status := 304, matches_found := r.matchList.length, matches_new := 0, error := none }], ?_⟩
      rw [← hrun.1]
      simp only [hnm, if_true] at hlog
      rw [hlog]
    | false =>
      simp only [hnm, Bool.false_eq_true, if_false] at hrun
      simp only [hnm, Bool.false_eq_true, if_false] at hlog
      split at hrun
      · next heq => exact absurd heq (backfillLoop_ne_error env _ _ _ _)
      · next s3 q3 heq =>
        simp only [Except.ok.injEq, Prod.mk.injEq] at hrun
        obtain ⟨r2, h2⟩ := backfillLoop_log_extends env hw _ _ _ _ _ heq
        have hup := (upsertAll_db_hw env r.matchList hw
          (logSync env s "recent"
            { httpStatus := 200, lastModified := r.lastModified,
              matchesFound := r.matchList.length })).1
        refine ⟨[{ endpoint := "recent", last_modified := r.lastModified, http_status := 200, matches_found := r.matchList.length, matches_new := 0, error := none }] ++ r2, ?_⟩
        rw [← hrun.1, h2, hup, hlog, List.append_assoc]

/-- The catch block of syncMatchReplay: the call never throws, success
reflects the fetch outcome, and when writes do not fail a caught fetch
error gets its audit row appended. -/
theorem syncMatchReplay_catch_logs (env : Env) (matchId : String) (s : SyncState) :
    ∃ q : SyncState × ReplaySyncOut, syncMatchReplay env matchId s = .ok q ∧
      q.2.success = (env.replay matchId (replayToken s.db matchId)).isOk ∧
      (env.wFail = (fun _ => false) →
        ∀ e, env.replay matchId (replayToken s.db matchId) = .error e →
          ({ endpoint := replayEndpointFor matchId, last_modified := none,
             http_status := 0, matches_found := 0, matches_new := 0,
             error := some e } : SyncLogRow) ∈ q.1.db.sync_log) := by
  cases henv : env.replay matchId (replayToken s.db matchId) with
  | error e =>
    refine ⟨(logSync env s (replayEndpointFor matchId) { httpStatus := 0, error := some e },
             { success := false, notModified := false }), ?_, rfl, ?_⟩
    · simp only [syncMatchReplay, syncMatchReplayBody, henv]
    · intro hw e2 he2
      have he : e2 = e := by
        simp only [Except.error.injEq] at he2
        exact he2.symm
      subst he
      rw [logSync_db_hw env s _ _ hw]
      simp
  | ok r =>
    rcases r with ⟨data, nm, lm⟩
    cases nm with
    | true =>
      have hcall : syncMatchReplay env matchId s = .ok
          (logSync env s (replayEndpointFor matchId)
            { httpStatus := 304, lastModified := lm, matchesFound := 1, matchesNew := 0 },
           { success := true, notModified := true }) := by
        simp only [syncMatchReplay, syncMatchReplayBody, henv]
        rfl
      refine ⟨_, hcall, rfl, ?_⟩
      intro _ e he
      exact absurd he (by simp)
    | false =>
      cases data with
      | some rd =>
        have hcall : syncMatchReplay env matchId s = .ok
            (persistReplayData env
              (logSync env s (replayEndpointFor matchId)
                { httpStatus := 200, lastModified := lm, matchesFound := 1,
                  matchesNew := 1 })
              matchId rd,
             { success := true, notModified := false }) := by
          simp only [syncMatchReplay, syncMatchReplayBody, henv, Bool.false_eq_true,
            if_false]
        refine ⟨_, hcall, rfl, ?_⟩
        intro _ e he
        exact absurd he (by simp)
      | none =>
        have hcall : syncMatchReplay env matchId s = .ok
            (logSync env s (replayEndpointFor matchId)
              { httpStatus := 200, lastModified := lm, matchesFound := 1,
                matchesNew := 1 },
             { success := true, notModified := false }) := by
          simp only [syncMatchReplay, syncMatchReplayBody, henv, Bool.false_eq_true,
            if_false]
        refine ⟨_, hcall, rfl, ?_⟩
        intro _ e he
        exact absurd he (by simp)

/-- An environment where every client call fails and every persistence
write fails, including the audit inserts of the catch handlers. -/
def c1FailEnv : Env :=
  { upcoming := fun _ => .error "network error"
    recent := fun _ => .error "network error"
    replay := fun _ _ => .error "network error"
    wFail := fun _ => true }

/-- An environment where every client call fails but persistence writes
succeed. -/
def c1NetEnv : Env :=
  { upcoming := fun _ => .error "network error"
    recent := fun _ => .error "network error"
    replay := fun _ _ => .error "network error"
    wFail := fun _ => false }

/-- C1 counterexample: under the claim's own quantification over
persistence write errors the audit-append conjunct fails.  With both polls
failing and every persistence write failing, syncMatches still returns
normally with errors = 2 and both audit inserts are attempted (they appear
in the write trace), but the audit trail stays empty: no audit entry is
appended for either caught error. -/
theorem c1_audit_append_counterexample :
    syncMatches c1FailEnv initialState =
      .ok ({ db := {}, wtick := 2,
             trace := [.insertSyncLog "upcoming", .insertSyncLog "recent"] },
           { upcoming := 0, recent := 0, replaysQueued := 0, errors := 2 }) ∧
    ({ db := {}, wtick := 2,
       trace := [.insertSyncLog "upcoming", .insertSyncLog "recent"] } :
        SyncState).db.sync_log = [] := by
  exact ⟨rfl, rfl⟩

/-- C1 (amended): for every behaviour of the upstream API and of the
persistence layer, syncMatches returns normally and never throws, with each
phase's caught error reflected only in the returned errors count, and
syncMatchReplay returns normally with success reflecting the fetch outcome;
the audit entry recording a caught error is appended provided the
persistence layer does not fail the audit write itself (a failing audit
write is swallowed and appends nothing). -/
theorem c1_orchestrator_amended (env : Env) (s : SyncState) (matchId : String) :
    (∃ p : SyncState × SyncResults, syncMatches env s = .ok p ∧
      p.2.errors =
        (if (env.upcoming (condTokens s.db.sync_log).1).isOk then 0 else 1) +
        (if (env.recent (condTokens s.db.sync_log).2).isOk then 0 else 1) ∧
      (env.wFail = (fun _ => false) →
        (∀ e, env.upcoming (condTokens s.db.sync_log).1 = .error e →
          ({ endpoint := "upcoming", last_modified := none, http_status := 0,
             matches_found := 0, matches_new := 0, error := some e } : SyncLogRow)
            ∈ p.1.db.sync_log) ∧
        (∀ e, env.recent (condTokens s.db.sync_log).2 = .error e →
          ({ endpoint := "recent", last_modified := none, http_status := 0,
             matches_found := 0, matches_new := 0, error := some e } : SyncLogRow)
            ∈ p.1.db.sync_log))) ∧
    (∃ q : SyncState × ReplaySyncOut, syncMatchReplay env matchId s = .ok q ∧
      q.2.success = (env.replay matchId (replayToken s.db matchId)).isOk ∧
      (env.wFail = (fun _ => false) →
        ∀ e, env.replay matchId (replayToken s.db matchId) = .error e →
          ({ endpoint := replayEndpointFor matchId, last_modified := none,
             http_status := 0, matches_found := 0, matches_new := 0,
             error := some e } : SyncLogRow) ∈ q.1.db.sync_log)) := by
  refine ⟨?_, syncMatchReplay_catch_logs env matchId s⟩
  cases hU : env.upcoming (condTokens s.db.sync_log).1 with
  | error e =>
    cases hR : env.recent (condTokens s.db.sync_log).2 with
    | error e2 =>
      refine ⟨(logSync env
          (logSync env s "upcoming" { httpStatus := 0, error := some e })
          "recent" { httpStatus := 0, error := some e2 },
        { upcoming := 0, recent := 0, replaysQueued := 0, errors := 2 }), ?_, ?_, ?_⟩
      · simp only [syncMatches, upcomingPhase_error env s _ e hU,
          recentPhase_error env _ _ e2 hR]
      · rfl
      · intro hw
        constructor
        · intro e3 he3
          injection he3 with h
          subst h
          simp [logSync, dbWrite, hw]
        · intro e3 he3
          injection he3 with h
          subst h
          simp [logSync, dbWrite, hw]
    | ok r =>
      obtain ⟨⟨s2, rc, q⟩, hrp⟩ := exists_ok_of_ne_error _
        (recentPhase_ne_error_of_ok env
          (logSync env s "upcoming" { httpStatus := 0, error := some e })
          (condTokens s.db.sync_log).2 r hR)
      refine ⟨(s2, { upcoming := 0, recent := rc, replaysQueued := q, errors := 1 }), ?_, ?_, ?_⟩
      · simp only [syncMatches, upcomingPhase_error env s _ e hU, hrp]
      · rfl
      · intro hw
        constructor
        · intro e3 he3
          injection he3 with h
          subst h
          obtain ⟨rest, hrest⟩ := recentPhase_log_extends env
            (logSync env s "upcoming" { httpStatus := 0, error := some e })
            (condTokens s.db.sync_log).2 s2 rc q hw hrp
          simp [hrest, logSync, dbWrite, hw]
        · intro e3 he3
          exact absurd he3 (by simp)
  | ok r =>
    obtain ⟨⟨s1, up⟩, hup⟩ := exists_ok_of_ne_error _
      (upcomingPhase_ne_error_of_ok env s (condTokens s.db.sync_log).1 r hU)
    cases hR : env.recent (condTokens s.db.sync_log).2 with
    | error e2 =>
      refine ⟨(logSync env s1 "recent" { httpStatus := 0, error := some e2 }, { upcoming := up, recent := 0, replaysQueued := 0, errors := 1 }), ?_, ?_, ?_⟩
      · simp only [syncMatches, hup, recentPhase_error env s1 _ e2 hR]
      · rfl
      · intro hw
        constructor
        · intro e3 he3
          exact absurd he3 (by simp)
        · intro e3 he3
          injection he3 with h
          subst h
          simp [logSync, dbWrite, hw]
    | ok r2 =>
      obtain ⟨⟨s2, rc, q⟩, hrp⟩ := exists_ok_of_ne_error _
        (recentPhase_ne_error_of_ok env s1 (condTokens s.db.sync_log).2 r2 hR)
      refine ⟨(s2, { upcoming := up, recent := rc, replaysQueued := q, errors := 0 }), ?_, ?_, ?_⟩
      · simp only [syncMatches, hup, hrp]
      · rfl
      · intro hw
        constructor
        · intro e3 he3
          exact absurd he3 (by simp)
        · intro e3 he3
          exact absurd he3 (by simp)

theorem c1_orchestrator_amended_witness :
    (∃ p : SyncState × SyncResults, syncMatches c1NetEnv initialState = .ok p ∧
      p.2.errors = 2 ∧
      ({ endpoint := "upcoming", last_modified := none, http_status := 0,
         matches_found := 0, matches_new := 0,
         error := some "network error" } : SyncLogRow) ∈ p.1.db.sync_log ∧
      ({ endpoint := "recent", last_modified := none, http_status := 0,
         matches_found := 0, matches_new := 0,
         error := some "network error" } : SyncLogRow) ∈ p.1.db.sync_log) ∧
    (∃ q : SyncState × ReplaySyncOut,
      syncMatchReplay c1NetEnv "m1" initialState = .ok q ∧
      q.2.success = false ∧
      ({ endpoint := replayEndpointFor "m1", last_modified := none,
         http_status := 0, matches_found := 0, matches_new := 0,
         error := some "network error" } : SyncLogRow) ∈ q.1.db.sync_log) := by
  obtain ⟨⟨p, hp, herr, hlog⟩, ⟨q, hq, hsucc, hqlog⟩⟩ :=
    c1_orchestrator_amended c1NetEnv initialState "m1"
  obtain ⟨hupmem, hrecmem⟩ := hlog rfl
  refine ⟨⟨p, hp, ?_, hupmem _ rfl, hrecmem _ rfl⟩,
          ⟨q, hq, ?_, hqlog rfl _ rfl⟩⟩
  · rw [herr]
    rfl
  · rw [hsucc]
    rfl
